import Mathlib

/-!
# FactCheck: proxy endpoint, extension relay and result presenter

A shallow embedding of the three source files of the FactCheck Chrome extension:

* `FactCheck server/server.js`: the `POST /fact-check` route handler,
* `FactCheck/background.js`: the context-menu click listener and `runAIAnalysis`,
* `FactCheck/popup.js`: `initializePopup` and `displayResults`.

JavaScript strings are lists of characters, JavaScript numbers are exact finite decimals
(every JSON number literal and every finite double is one; binary rounding and overflow to
infinity are outside the model), and JavaScript values of the kind `JSON.parse` produces are the
type `JVal`. Built-ins the code calls (`String.prototype.trim`, `String.prototype.replace` with
the two regular expressions of the handler, `JSON.parse`, template literals, `!x`, `>`, `===`)
are modelled after ECMAScript; the Chrome platform, Express and the Gemini client are inputs.
-/

namespace FactCheck

/-! ## Strings -/

/-- A JavaScript string, as the list of its characters. -/
abbrev JStr := List Char

/-- The characters matched by `\s` in a regular expression and removed by
`String.prototype.trim`: ECMAScript WhiteSpace and LineTerminator. -/
def isJsSpace (c : Char) : Bool :=
  c.toNat == 9 || c.toNat == 10 || c.toNat == 11 || c.toNat == 12 || c.toNat == 13
    || c.toNat == 32 || c.toNat == 160 || c.toNat == 0x1680
    || (0x2000 ≤ c.toNat && c.toNat ≤ 0x200A)
    || c.toNat == 0x2028 || c.toNat == 0x2029 || c.toNat == 0x202F
    || c.toNat == 0x205F || c.toNat == 0x3000 || c.toNat == 0xFEFF

/-- The string without its leading white space (`trimStart`). -/
def trimStart (s : JStr) : JStr := s.dropWhile isJsSpace

/-- The string without its trailing white space (`trimEnd`). -/
def trimEnd (s : JStr) : JStr := (s.reverse.dropWhile isJsSpace).reverse

/-- The method `String.prototype.trim`. -/
def trim (s : JStr) : JStr := trimEnd (trimStart s)

/-- The literal text of the opening fence in the first regular expression. -/
def fenceOpen : JStr := "```json".toList

/-- The literal text of the closing fence in the second regular expression. -/
def fenceClose : JStr := "```".toList

/-- The call `.replace(/^```json\s*/, '')` (server.js line 95): when the string starts with the
opening fence, the fence and the longest run of white space after it are removed; otherwise the
string is unchanged. -/
def stripOpeningFence (s : JStr) : JStr :=
  if fenceOpen.isPrefixOf s then (s.drop fenceOpen.length).dropWhile isJsSpace else s

/-- The call `.replace(/\s*```$/, '')` (server.js line 96): `$` only matches at the end of the
input, so there is a match exactly when the string ends with three backticks; the leftmost match
then starts at the beginning of the white-space run in front of them. -/
def stripClosingFence (s : JStr) : JStr :=
  if fenceClose.reverse.isPrefixOf s.reverse then
    ((s.reverse.drop fenceClose.length).dropWhile isJsSpace).reverse
  else s

/-! ## Numbers -/

/-- A finite JavaScript number, as the exact decimal `mant * 10 ^ exp`. -/
structure JNum where
  mant : Int
  exp : Int
  deriving DecidableEq

/-- Divide the mantissa by ten while it ends in a zero digit. -/
def stripZeros : Nat → Int → Int → Int × Int
  | 0, m, e => (m, e)
  | fuel + 1, m, e =>
    if m ≠ 0 ∧ m % 10 = 0 then stripZeros fuel (m / 10) (e + 1) else (m, e)

/-- The canonical representation of `m * 10 ^ e`: zero is `0 * 10 ^ 0`, and a non-zero mantissa
does not end in a zero digit. -/
def JNum.normalize (m e : Int) : JNum :=
  if m = 0 then ⟨0, 0⟩
  else ⟨(stripZeros m.natAbs m e).1, (stripZeros m.natAbs m e).2⟩

/-- An integer as a number. -/
def JNum.ofInt (n : Int) : JNum := JNum.normalize n 0

/-- The result of `ToNumber`: not-a-number, an infinity, or a finite number. -/
inductive NumResult where
  | nan
  | inf (negative : Bool)
  | fin (n : JNum)
  deriving DecidableEq

/-- The test `a > b` on finite numbers: both are scaled to the smaller exponent. -/
def JNum.gt (a b : JNum) : Bool :=
  decide (b.mant * 10 ^ (b.exp - min a.exp b.exp).toNat
    < a.mant * 10 ^ (a.exp - min a.exp b.exp).toNat)

/-- The test `x > b` for a `ToNumber` result `x` and a finite number `b`; a comparison with
`NaN` is false. -/
def NumResult.gt (x : NumResult) (b : JNum) : Bool :=
  match x with
  | .nan => false
  | .inf negative => !negative
  | .fin a => a.gt b

/-- The decimal digit characters `0` to `9`. -/
def isDigit (c : Char) : Bool := 48 ≤ c.toNat && c.toNat ≤ 57

/-- The decimal digits of a natural number. -/
def digitsOf (n : Nat) : JStr := Nat.toDigits 10 n

/-- The value of a run of decimal digit characters. -/
def digitsValue (ds : JStr) : Nat := ds.foldl (fun a c => 10 * a + (c.toNat - 48)) 0

/-- The operation `Number::toString` on a positive number with decimal digits `ds`
(`k = ds.length` of them, without trailing zeros) and value `0.ds * 10 ^ n`. -/
def positiveToString (ds : JStr) (n : Int) : JStr :=
  let k : Int := ds.length
  if k ≤ n ∧ n ≤ 21 then ds ++ List.replicate (n - k).toNat '0'
  else if 0 < n ∧ n ≤ 21 then ds.take n.toNat ++ '.' :: ds.drop n.toNat
  else if -6 < n ∧ n ≤ 0 then '0' :: '.' :: List.replicate (-n).toNat '0' ++ ds
  else
    let e := n - 1
    let expText := (if e < 0 then '-' else '+') :: digitsOf e.natAbs
    match ds with
    | [] => []
    | [d] => d :: 'e' :: expText
    | d :: rest => d :: '.' :: rest ++ 'e' :: expText

/-- The operation `Number::toString` (radix 10). -/
def JNum.toStr (x : JNum) : JStr :=
  let y := JNum.normalize x.mant x.exp
  if y.mant = 0 then ['0']
  else
    let ds := digitsOf y.mant.natAbs
    let body := positiveToString ds (ds.length + y.exp)
    if y.mant < 0 then '-' :: body else body

/-! ## Values -/

/-- A JavaScript value of the kind `JSON.parse` produces, or `undefined`. An object is the list
of its own properties in creation order. -/
inductive JVal where
  | undefined
  | null
  | bool (b : Bool)
  | num (n : JNum)
  | str (s : JStr)
  | arr (items : List JVal)
  | obj (fields : List (JStr × JVal))

/-- An exception thrown by JavaScript code, with its message. -/
structure JsError where
  message : JStr
  deriving DecidableEq

/-- The own property `k` of a property list, `undefined` when there is none. -/
def lookupField (k : JStr) : List (JStr × JVal) → JVal
  | [] => .undefined
  | (k', v) :: rest => if k' = k then v else lookupField k rest

/-- Whether a property list has an own property `k`. -/
def hasField (k : JStr) (fields : List (JStr × JVal)) : Bool :=
  fields.any (fun p => decide (p.1 = k))

/-- The operation `CreateDataProperty`: an existing property keeps its place and takes the new
value, a new one is added at the end. -/
def setField (k : JStr) (v : JVal) : List (JStr × JVal) → List (JStr × JVal)
  | [] => [(k, v)]
  | (k', v') :: rest => if k' = k then (k', v) :: rest else (k', v') :: setField k v rest

/-- The truth value of a JavaScript value (`ToBoolean`). -/
def truthy : JVal → Bool
  | .undefined => false
  | .null => false
  | .bool b => b
  | .num n => decide (n.mant ≠ 0)
  | .str s => !s.isEmpty
  | .arr _ => true
  | .obj _ => true

/-- The strict comparison `v === 0`. -/
def strictEqZero : JVal → Bool
  | .num n => decide (n.mant = 0)
  | _ => false

/-- The property read `v.k` for the property names the three source files read from data
(`text`, `reliability_score`, `summary`, `sources`, `url`, `title`, `length`): an own property of
an object, the length of a string or of an array, and `undefined` otherwise (none of these
names is inherited from a built-in). Reading a property of `undefined` or `null` throws. -/
def getProp (v : JVal) (k : JStr) : Except JsError JVal :=
  match v with
  | .undefined =>
    .error ⟨"Cannot read properties of undefined (reading '".toList ++ k ++ "')".toList⟩
  | .null => .error ⟨"Cannot read properties of null (reading '".toList ++ k ++ "')".toList⟩
  | .obj fields => .ok (lookupField k fields)
  | .str s => .ok (if k = "length".toList then .num (JNum.ofInt s.length) else .undefined)
  | .arr items => .ok (if k = "length".toList then .num (JNum.ofInt items.length) else .undefined)
  | _ => .ok .undefined

/-- The message of the `TypeError` thrown when an object cannot be converted to a primitive. -/
def cannotConvert : JsError := ⟨"Cannot convert object to primitive value".toList⟩

/-- The text of one element in `Array.prototype.join`, given its `ToString` conversion:
`undefined` and `null` elements give the empty string. -/
def itemText (v : JVal) (converted : Except JsError JStr) : Except JsError JStr :=
  match v with
  | .undefined => .ok []
  | .null => .ok []
  | _ => converted

mutual
/-- The operation `ToString`, as applied by template literals. An array is the comma-separated
join of its elements; an object is `[object Object]` unless it has an own `toString` property,
which (coming from JSON) is not callable, and then the conversion throws. -/
def toStr : JVal → Except JsError JStr
  | .undefined => .ok "undefined".toList
  | .null => .ok "null".toList
  | .bool b => .ok (if b then "true".toList else "false".toList)
  | .num n => .ok n.toStr
  | .str s => .ok s
  | .arr items => joinItems items
  | .obj fields =>
    if hasField "toString".toList fields then .error cannotConvert
    else .ok "[object Object]".toList
/-- The method `Array.prototype.join` with the separator `,`. -/
def joinItems : List JVal → Except JsError JStr
  | [] => .ok []
  | x :: rest =>
    match rest, itemText x (toStr x), joinItems rest with
    | [], first, _ => first
    | _ :: _, .ok a, .ok b => .ok (a ++ ',' :: b)
    | _ :: _, .error e, _ => .error e
    | _ :: _, _, .error e => .error e
end

/-! ## Number literals -/

/-- The exponent part of a number literal: nothing, or `e` or `E`, an optional sign and at least
one digit. -/
def parseExponent (s : JStr) : Option Int :=
  match s with
  | [] => some 0
  | c :: r =>
    if c = 'e' ∨ c = 'E' then
      match r with
      | '+' :: ds => if ds ≠ [] ∧ ds.all isDigit then some (digitsValue ds) else none
      | '-' :: ds => if ds ≠ [] ∧ ds.all isDigit then some (-(digitsValue ds : Int)) else none
      | ds => if ds ≠ [] ∧ ds.all isDigit then some (digitsValue ds) else none
    else none

/-- A JSON number: `-? (0 | [1-9][0-9]*) (. [0-9]+)? ([eE] [+-]? [0-9]+)?`. -/
def parseJsonNumber (s : JStr) : Option JNum :=
  let neg := s.head? = some '-'
  let s1 := if neg then s.drop 1 else s
  let ip := s1.takeWhile isDigit
  let s2 := s1.dropWhile isDigit
  if ip = [] ∨ (ip.head? = some '0' ∧ ip.length ≠ 1) then none
  else
    let hasFrac := s2.head? = some '.'
    let fp := if hasFrac then (s2.drop 1).takeWhile isDigit else []
    let s3 := if hasFrac then (s2.drop 1).dropWhile isDigit else s2
    if hasFrac ∧ fp = [] then none
    else
      match parseExponent s3 with
      | none => none
      | some e =>
        let m : Int := digitsValue (ip ++ fp)
        some (JNum.normalize (if neg then -m else m) (e - fp.length))

/-- The value of a digit character in a radix up to sixteen. -/
def digitIn (radix : Nat) (c : Char) : Option Nat :=
  let v :=
    if '0' ≤ c ∧ c ≤ '9' then c.toNat - 48
    else if 'a' ≤ c ∧ c ≤ 'f' then c.toNat - 87
    else if 'A' ≤ c ∧ c ≤ 'F' then c.toNat - 55
    else 16
  if v < radix then some v else none

/-- The value of a non-empty run of digits in the given radix. -/
def radixValue (radix : Nat) (ds : JStr) : Option Nat :=
  if ds = [] then none
  else ds.foldl (fun acc c =>
    match acc, digitIn radix c with
    | some a, some d => some (radix * a + d)
    | _, _ => none) (some 0)

/-- An unsigned `StrDecimalLiteral`: `Infinity`, or digits with an optional fraction and
exponent, where one of the integer and fraction parts may be empty. -/
def parseUnsignedDecimal (s : JStr) : NumResult :=
  if s = "Infinity".toList then .inf false
  else
    let ip := s.takeWhile isDigit
    let s2 := s.dropWhile isDigit
    let hasFrac := s2.head? = some '.'
    let fp := if hasFrac then (s2.drop 1).takeWhile isDigit else []
    let s3 := if hasFrac then (s2.drop 1).dropWhile isDigit else s2
    if ip = [] ∧ fp = [] then .nan
    else
      match parseExponent s3 with
      | none => .nan
      | some e => .fin (JNum.normalize (digitsValue (ip ++ fp)) (e - fp.length))

/-- The sign change of a `ToNumber` result. -/
def NumResult.neg : NumResult → NumResult
  | .nan => .nan
  | .inf negative => .inf (!negative)
  | .fin n => .fin ⟨-n.mant, n.exp⟩

/-- The operation `StringToNumber`: white space is trimmed, the empty string is zero, and the
rest is a binary, octal or hexadecimal integer literal or a signed decimal literal; anything
else is `NaN`. -/
def stringToNumber (s : JStr) : NumResult :=
  match trim s with
  | [] => .fin ⟨0, 0⟩
  | '0' :: c :: ds =>
    if c = 'x' ∨ c = 'X' then
      match radixValue 16 ds with | some n => .fin (JNum.ofInt n) | none => .nan
    else if c = 'o' ∨ c = 'O' then
      match radixValue 8 ds with | some n => .fin (JNum.ofInt n) | none => .nan
    else if c = 'b' ∨ c = 'B' then
      match radixValue 2 ds with | some n => .fin (JNum.ofInt n) | none => .nan
    else parseUnsignedDecimal ('0' :: c :: ds)
  | '+' :: r => parseUnsignedDecimal r
  | '-' :: r => (parseUnsignedDecimal r).neg
  | t => parseUnsignedDecimal t

/-- The operation `ToNumber`, as applied by `>` to its left operand when the right one is a
number. -/
def toNumber : JVal → Except JsError NumResult
  | .undefined => .ok .nan
  | .null => .ok (.fin ⟨0, 0⟩)
  | .bool b => .ok (.fin (if b then ⟨1, 0⟩ else ⟨0, 0⟩))
  | .num n => .ok (.fin n)
  | .str s => .ok (stringToNumber s)
  | v => (toStr v).map stringToNumber

/-- The test `v > n` for a number literal `n`. -/
def gtNumber (v : JVal) (n : Int) : Except JsError Bool :=
  (toNumber v).map (fun x => x.gt (JNum.ofInt n))

/-! ## JSON.parse -/

/-- The three literal names of JSON. -/
inductive Lit where
  | ltrue
  | lfalse
  | lnull
  deriving DecidableEq

/-- The spelling of a literal name. -/
def Lit.spelling : Lit → JStr
  | .ltrue => "true".toList
  | .lfalse => "false".toList
  | .lnull => "null".toList

/-- A lexical token of JSON. -/
inductive Token where
  | lbrace
  | rbrace
  | lbracket
  | rbracket
  | colon
  | comma
  | str (s : JStr)
  | num (n : JNum)
  | lit (name : Lit)
  deriving DecidableEq

/-- The four white-space characters of JSON: tab, line feed, carriage return and space. -/
def isJsonSpace (c : Char) : Bool :=
  c.toNat == 9 || c.toNat == 10 || c.toNat == 13 || c.toNat == 32

/-- The characters a JSON number is made of. -/
def isNumChar (c : Char) : Bool :=
  isDigit c || c == '-' || c == '+' || c == '.' || c == 'e' || c == 'E'

/-- Where the lexer is: between tokens, inside a string (characters so far, reversed), after a
backslash, inside a `\u` escape (digits so far), inside a number (characters so far, reversed),
or inside one of the names `true`, `false`, `null` (with the number of characters read). -/
inductive LexState where
  | start
  | inStr (acc : JStr)
  | inEsc (acc : JStr)
  | inHex (acc : JStr) (digits : List Nat)
  | inNum (acc : JStr)
  | inLit (name : Lit) (seen : Nat)

/-- One character read between tokens. -/
def stepStart (c : Char) : Option (LexState × List Token) :=
  if isJsonSpace c then some (.start, [])
  else if c = '{' then some (.start, [.lbrace])
  else if c = '}' then some (.start, [.rbrace])
  else if c = '[' then some (.start, [.lbracket])
  else if c = ']' then some (.start, [.rbracket])
  else if c = ':' then some (.start, [.colon])
  else if c = ',' then some (.start, [.comma])
  else if c = '"' then some (.inStr [], [])
  else if c = '-' ∨ isDigit c then some (.inNum [c], [])
  else if c = 't' then some (.inLit .ltrue 1, [])
  else if c = 'f' then some (.inLit .lfalse 1, [])
  else if c = 'n' then some (.inLit .lnull 1, [])
  else none

/-- The character an escape letter stands for. -/
def unescape (c : Char) : Option Char :=
  if c = '"' then some '"'
  else if c = '\\' then some '\\'
  else if c = '/' then some '/'
  else if c = 'b' then some (Char.ofNat 8)
  else if c = 'f' then some (Char.ofNat 12)
  else if c = 'n' then some '\n'
  else if c = 'r' then some '\r'
  else if c = 't' then some '\t'
  else none

/-- One character read: the next state and the tokens completed by it. A character that cannot
continue the input gives `none`. A `\u` escape is decoded to the character with that code
(codes in the surrogate range have no character in this model). -/
def lexStep (st : LexState) (c : Char) : Option (LexState × List Token) :=
  match st with
  | .start => stepStart c
  | .inStr acc =>
    if c = '"' then some (.start, [.str acc.reverse])
    else if c = '\\' then some (.inEsc acc, [])
    else if c.toNat < 32 then none
    else some (.inStr (c :: acc), [])
  | .inEsc acc =>
    if c = 'u' then some (.inHex acc [], [])
    else (unescape c).map (fun d => (.inStr (d :: acc), []))
  | .inHex acc digits =>
    match digitIn 16 c with
    | none => none
    | some d =>
      if digits.length = 3 then
        some (.inStr (Char.ofNat ((digits ++ [d]).foldl (fun a x => 16 * a + x) 0) :: acc), [])
      else some (.inHex acc (digits ++ [d]), [])
  | .inNum acc =>
    if isNumChar c then some (.inNum (c :: acc), [])
    else
      match parseJsonNumber acc.reverse, stepStart c with
      | some n, some (st', toks) => some (st', .num n :: toks)
      | _, _ => none
  | .inLit name seen =>
    match name.spelling.drop seen with
    | [] => none
    | [x] => if c = x then some (.start, [.lit name]) else none
    | x :: _ :: _ => if c = x then some (.inLit name (seen + 1), []) else none

/-- The tokens completed at the end of the input. -/
def lexFinish : LexState → Option (List Token)
  | .start => some []
  | .inNum acc => (parseJsonNumber acc.reverse).map (fun n => [.num n])
  | _ => none

/-- The tokens of the remaining input, from a lexer state. -/
def lexFrom : LexState → JStr → Option (List Token)
  | st, [] => lexFinish st
  | st, c :: cs =>
    match lexStep st c with
    | none => none
    | some (st', toks) => (lexFrom st' cs).map (fun more => toks ++ more)

/-- The tokens of a JSON text. -/
def lex (s : JStr) : Option (List Token) := lexFrom .start s

/-- A container under construction: an array with its elements so far (reversed), an object
that expects a key, or an object that expects the value of a key. -/
inductive Frame where
  | arr (done : List JVal)
  | objKey (done : List (JStr × JVal))
  | objVal (done : List (JStr × JVal)) (key : JStr)

/-- The value of a literal name. -/
def Lit.value : Lit → JVal
  | .ltrue => .bool true
  | .lfalse => .bool false
  | .lnull => .null

/-- What the parser expects next. -/
inductive Expect where
  | value
  | valueOrClose
  | key
  | keyOrClose
  | colon (key : JStr)
  | after (v : JVal)

/-- The JSON grammar over tokens, read one token at a time with the stack of open containers.
The text is accepted when the tokens end right after a complete top-level value. -/
def parseTokens : Expect → List Frame → List Token → Option JVal
  | .after v, [], [] => some v
  | _, _, [] => none
  | .value, stack, t :: ts =>
    match t with
    | .str s => parseTokens (.after (.str s)) stack ts
    | .num n => parseTokens (.after (.num n)) stack ts
    | .lit name => parseTokens (.after name.value) stack ts
    | .lbracket => parseTokens .valueOrClose (.arr [] :: stack) ts
    | .lbrace => parseTokens .keyOrClose (.objKey [] :: stack) ts
    | _ => none
  | .valueOrClose, stack, t :: ts =>
    match t, stack with
    | .rbracket, .arr _ :: stack' => parseTokens (.after (.arr [])) stack' ts
    | .rbracket, _ => none
    | .str s, _ => parseTokens (.after (.str s)) stack ts
    | .num n, _ => parseTokens (.after (.num n)) stack ts
    | .lit name, _ => parseTokens (.after name.value) stack ts
    | .lbracket, _ => parseTokens .valueOrClose (.arr [] :: stack) ts
    | .lbrace, _ => parseTokens .keyOrClose (.objKey [] :: stack) ts
    | _, _ => none
  | .key, stack, t :: ts =>
    match t with
    | .str k => parseTokens (.colon k) stack ts
    | _ => none
  | .keyOrClose, stack, t :: ts =>
    match t, stack with
    | .str k, _ => parseTokens (.colon k) stack ts
    | .rbrace, .objKey done :: stack' => parseTokens (.after (.obj done)) stack' ts
    | _, _ => none
  | .colon k, stack, t :: ts =>
    match t, stack with
    | .colon, .objKey done :: stack' => parseTokens .value (.objVal done k :: stack') ts
    | _, _ => none
  | .after v, stack, t :: ts =>
    match t, stack with
    | .comma, .arr done :: stack' => parseTokens .value (.arr (v :: done) :: stack') ts
    | .rbracket, .arr done :: stack' =>
      parseTokens (.after (.arr (v :: done).reverse)) stack' ts
    | .comma, .objVal done k :: stack' =>
      parseTokens .key (.objKey (setField k v done) :: stack') ts
    | .rbrace, .objVal done k :: stack' =>
      parseTokens (.after (.obj (setField k v done))) stack' ts
    | _, _ => none

/-- The built-in `JSON.parse` (without a reviver): `none` stands for the `SyntaxError` it
throws. -/
def jsonParse (s : JStr) : Option JVal :=
  match lex s with
  | none => none
  | some toks => parseTokens .value [] toks

/-! ## The proxy endpoint (`FactCheck server/server.js`) -/

/-- What `ai.models.generateContent` does for a prompt: the promise rejects with an error that
has the given message, or it resolves with a response whose `text` is a string or
`undefined`. -/
inductive Upstream where
  | throws (message : JStr)
  | returns (text : Option JStr)

/-- An HTTP response of the handler: the status code and the value passed to `res.json`. -/
structure Response where
  status : Nat
  body : JVal

/-- One run of the route handler: the prompts passed to `generateContent`, and the response
sent, or the exception that left the handler. -/
structure HandlerRun where
  aiCalls : List JStr
  result : Except JsError Response

/-- The template literal of server.js line 43, around the converted `text`. -/
def buildPrompt (text : JStr) : JStr :=
  ("Analyze the following user-selected text for factual accuracy, bias, and context. ".toList
    ++ "Search for reliable sources to verify the core claim. ".toList
    ++ "Your output MUST be in a valid JSON format following the provided schema. ".toList
    ++ "The text to analyze is: \"".toList) ++ text ++ "\"".toList

/-- The body of the 400 response (server.js line 36). -/
def noTextBody : JVal :=
  .obj [("error".toList, .str "No text provided for fact-checking.".toList)]

/-- The body of the 500 response of the outer `catch` (server.js lines 116-119). -/
def upstreamErrorBody (message : JStr) : JVal :=
  .obj [("error".toList, .str "Internal server error during AI analysis.".toList),
    ("details".toList, .str message)]

/-- The body of the 500 response of the inner `catch` (server.js lines 106-110). -/
def malformedBody (rawResponseText : JStr) : JVal :=
  .obj [("error".toList, .str "Internal server error during AI analysis.".toList),
    ("details".toList, .str "AI returned malformed JSON.".toList),
    ("raw_ai_response".toList, .str rawResponseText)]

/-- The sanitise-and-parse step of server.js lines 94-98, on the trimmed upstream text. -/
def sanitizeAndParse (rawResponseText : JStr) : Option JVal :=
  jsonParse (stripClosingFence (stripOpeningFence rawResponseText))

/-- The handler after the upstream call has settled (server.js lines 87-120). A response
without `text` makes `response.text.trim()` throw inside the outer `try`. -/
def respondTo : Upstream → Response
  | .throws message => ⟨500, upstreamErrorBody message⟩
  | .returns none =>
    ⟨500, upstreamErrorBody "Cannot read properties of undefined (reading 'trim')".toList⟩
  | .returns (some text) =>
    match sanitizeAndParse (trim text) with
    | some factCheckResult => ⟨200, factCheckResult⟩
    | none => ⟨500, malformedBody (trim text)⟩

/-- The route handler `router.post('/fact-check', ...)` (server.js lines 31-121), for the parsed
request body `req.body` and the behaviour `ai` of the upstream call. The destructuring of line
33 and the template literal of line 43 are outside the `try`, so what they throw leaves the
handler. -/
def factCheckHandler (ai : JStr → Upstream) (reqBody : JVal) : HandlerRun :=
  match reqBody with
  | .undefined =>
    ⟨[], .error ⟨"Cannot destructure property 'text' of 'req.body' as it is undefined.".toList⟩⟩
  | .null =>
    ⟨[], .error ⟨"Cannot destructure property 'text' of 'req.body' as it is null.".toList⟩⟩
  | body =>
    match getProp body "text".toList with
    | .error e => ⟨[], .error e⟩
    | .ok text =>
      if !truthy text then ⟨[], .ok ⟨400, noTextBody⟩⟩
      else
        match toStr text with
        | .error e => ⟨[], .error e⟩
        | .ok shown => ⟨[buildPrompt shown], .ok (respondTo (ai (buildPrompt shown)))⟩

/-! ## The extension relay (`FactCheck/background.js`) -/

/-- The constant `FACT_CHECK_MENU_ID`. -/
def FACT_CHECK_MENU_ID : JStr := "aiFactCheck".toList

/-- The area `chrome.storage.local`: the stored keys with their values. -/
abbrev Storage := List (JStr × JVal)

/-- The call `chrome.storage.local.set(items)`: every key of `items` is written. -/
def storageSet (items : List (JStr × JVal)) (st : Storage) : Storage :=
  items.foldl (fun acc p => setField p.1 p.2 acc) st

/-- A call of the `chrome.action` API made by the relay. -/
inductive Action where
  | setBadgeText (text : JStr) (tabId : Nat)
  | setBadgeBackgroundColor (color : JStr) (tabId : Nat)
  | openPopup
  deriving DecidableEq

/-- The part of the browser the relay acts on: the storage area and the `chrome.action` calls
made so far, oldest first. These calls and the storage writes are taken to complete
normally. -/
structure Browser where
  storage : Storage
  actions : List Action

/-- The argument `info` of the click listener: the item clicked and the selected text, if
any. The click takes place in a tab, whose id is passed along. -/
structure ClickInfo where
  menuItemId : JStr
  selectionText : Option JStr

/-- How the `fetch` of `runAIAnalysis` settles: the promise rejects (network error), or it
resolves with a response; `text` and `json` are what `response.text()` and `response.json()`
settle with, an error when they reject. -/
inductive FetchOutcome where
  | rejected (error : JsError)
  | resolved (ok : Bool) (status : Nat) (statusText : JStr) (text : Except JsError JStr)
      (json : Except JsError JVal)

/-- The placeholder `errorResult` (background.js lines 40-44). -/
def errorResult : JVal :=
  .obj [("reliability_score".toList, .num ⟨0, 0⟩),
    ("summary".toList, .str ("Could not connect to the fact-checking service. ".toList
      ++ "Please check your internet connection or try again later.".toList)),
    ("sources".toList, .arr [])]

/-- The guard of the click listener (background.js line 19). -/
def clickAccepted (info : ClickInfo) : Bool :=
  decide (info.menuItemId = FACT_CHECK_MENU_ID)
    && (match info.selectionText with | some s => !s.isEmpty | none => false)

/-- The constant `selectedText` (background.js line 20). -/
def selectedTextOf (info : ClickInfo) : JStr :=
  trim (info.selectionText.getD [])

/-- The click listener up to the `fetch` call (background.js lines 20-32 and 59-70): the
initial state is stored and the badge is set to "in progress". -/
def dispatch (selectedText : JStr) (tabId : Nat) (b : Browser) : Browser :=
  { storage := storageSet [("lastSelectedText".toList, .str selectedText),
      ("analysisResult".toList, .null), ("isAnalyzing".toList, .bool true)] b.storage
    actions := b.actions ++ [.setBadgeText "...".toList tabId,
      .setBadgeBackgroundColor "#FF9800".toList tabId] }

/-- The function `runAIAnalysis` from the point where `fetch` has settled (background.js lines
72-94), on the browser state of that moment. -/
def runAIAnalysis (out : FetchOutcome) (tabId : Nat) (b : Browser) : Except JsError Browser :=
  match out with
  | .rejected error => .error error
  | .resolved false status statusText text _ =>
    match text with
    | .error e => .error e
    | .ok errorBody =>
      .error ⟨"Proxy service failed: ".toList ++ digitsOf status ++ ' ' :: statusText
        ++ ". Details: ".toList ++ errorBody.take 100⟩
  | .resolved true _ _ _ (.error e) => .error e
  | .resolved true _ _ _ (.ok result) =>
    .ok { storage := storageSet [("analysisResult".toList, result),
            ("isAnalyzing".toList, .bool false)] b.storage
          actions := b.actions ++ [.setBadgeText "✓".toList tabId,
            .setBadgeBackgroundColor "#4CAF50".toList tabId, .openPopup] }

/-- The `catch` block of the click listener (background.js lines 37-53). -/
def recordFailure (tabId : Nat) (b : Browser) : Browser :=
  { storage := storageSet [("analysisResult".toList, errorResult),
      ("isAnalyzing".toList, .bool false)] b.storage
    actions := b.actions ++ [.setBadgeText "ERR".toList tabId,
      .setBadgeBackgroundColor "#F44336".toList tabId] }

/-- The click listener from the point where `fetch` has settled: the `try` around
`runAIAnalysis` with its `catch` (background.js lines 35-53). -/
def settle (out : FetchOutcome) (tabId : Nat) (b : Browser) : Browser :=
  match runAIAnalysis out tabId b with
  | .ok b' => b'
  | .error _ => recordFailure tabId b

/-- The click listener (background.js lines 18-55) when nothing else runs between the `fetch`
call and its settlement. -/
def onClicked (info : ClickInfo) (tabId : Nat) (out : FetchOutcome) (b : Browser) : Browser :=
  if clickAccepted info then settle out tabId (dispatch (selectedTextOf info) tabId b) else b

/-- The relay between events: the browser state and the requests in flight, oldest first, each
with the text it was sent for and the tab of its click. -/
structure Relay where
  browser : Browser
  inFlight : List (JStr × Nat)

/-- An event of the relay: a click on a menu item in a tab, or the settlement of the request at
the given position among those in flight. -/
inductive RelayEvent where
  | click (info : ClickInfo) (tabId : Nat)
  | settled (index : Nat) (out : FetchOutcome)

/-- The effect of one event. An accepted click stores the initial state and sends a request;
a settlement runs the rest of the listener that sent the request, on the state of that moment.
`none` when no request is in flight at the position. -/
def relayStep (r : Relay) : RelayEvent → Option Relay
  | .click info tabId =>
    if clickAccepted info then
      some { browser := dispatch (selectedTextOf info) tabId r.browser
             inFlight := r.inFlight ++ [(selectedTextOf info, tabId)] }
    else some r
  | .settled index out =>
    match r.inFlight.get? index with
    | none => none
    | some request =>
      some { browser := settle out request.2 r.browser
             inFlight := r.inFlight.eraseIdx index }

/-- The effect of a sequence of events, in order. -/
def relayRun (r : Relay) : List RelayEvent → Option Relay
  | [] => some r
  | e :: rest =>
    match relayStep r e with
    | none => none
    | some r' => relayRun r' rest

/-- The browser before anything has happened. -/
def Browser.initial : Browser := ⟨[], []⟩

/-- The browser states reachable from the empty store by the three storage writes of the
relay: the write at the start of a cycle, the success write and the failure write. -/
inductive Reachable : Browser → Prop where
  | initial : Reachable Browser.initial
  | cycleStart (b : Browser) (selectedText : JStr) (tabId : Nat) :
      Reachable b → Reachable (dispatch selectedText tabId b)
  | success (b b' : Browser) (out : FetchOutcome) (tabId : Nat) :
      Reachable b → runAIAnalysis out tabId b = .ok b' → Reachable b'
  | failure (b : Browser) (tabId : Nat) : Reachable b → Reachable (recordFailure tabId b)

/-- The stored value of `isAnalyzing` is `true`. -/
def isAnalyzingTrue (st : Storage) : Prop := lookupField "isAnalyzing".toList st = .bool true

/-- The stored value of `isAnalyzing` is `false`, or the key is absent. -/
def isAnalyzingOff (st : Storage) : Prop :=
  lookupField "isAnalyzing".toList st = .bool false
    ∨ lookupField "isAnalyzing".toList st = .undefined

/-- The stored value of `analysisResult` is `null`, or the key is absent. -/
def resultEmpty (st : Storage) : Prop :=
  lookupField "analysisResult".toList st = .null
    ∨ lookupField "analysisResult".toList st = .undefined

/-- How the relay's `fetch` sees a response of the proxy: `ok` for a status from 200 to 299.
Express serialises the body with `JSON.stringify` (`bodyText` is that text) and
`response.json()` parses it back, which for a value made by `JSON.parse` gives that value
again. -/
def fetchOutcomeOf (r : Response) (bodyText : JStr) : FetchOutcome :=
  .resolved (decide (200 ≤ r.status ∧ r.status ≤ 299)) r.status [] (.ok bodyText) (.ok r.body)

/-! ## The result presenter (`FactCheck/popup.js`) -/

/-- The `innerHTML` template of a source entry (popup.js lines 87-93) around its three
interpolated texts: the link target, the title, and the URL shown in parentheses. -/
def linkMarkup (href title shown : JStr) : JStr :=
  "\n                    <span class=\"text-blue-500 mr-2\">🔗</span>".toList
    ++ "\n                    <a href=\"".toList ++ href
    ++ ("\" target=\"_blank\" class=\"text-blue-600 hover:text-blue-800 hover:underline ".toList
      ++ "transition-colors leading-tight\">".toList)
    ++ "\n                        ".toList ++ title ++ " ".toList
    ++ ("\n                        <span class=\"text-gray-400 text-xs block truncate\" ".toList
      ++ "style=\"max-width: 200px;\">(".toList) ++ shown ++ ")</span>".toList
    ++ "\n                    </a>".toList
    ++ "\n                ".toList

/-- A list item appended to `sourcesList`: its class and its `innerHTML` (a source entry), or
its class and its `textContent` (the empty-state entry). -/
inductive SourceItem where
  | link (className : JStr) (innerHTML : JStr)
  | note (className : JStr) (textContent : JStr)
  deriving DecidableEq

/-- What `displayResults` writes to the score area and the summary: the text content given to
`scoreDisplay` (if any), its `style.background`, the text content of `scoreText`, the value
assigned to `claimSummary.textContent`, the class removed from and the classes added to
`scoreDisplay`, and whether `scoreText` is appended to `scoreDisplay`. -/
structure ScoreView where
  icon : Option JStr
  background : JStr
  scoreText : JStr
  summary : JVal
  removedClasses : List JStr
  addedClasses : List JStr
  scoreTextAppended : Bool

/-- What `displayResults` writes: the value assigned to `selectedTextDisplay.textContent`, the
score area, and the items of `sourcesList`. -/
structure ResultView where
  selectedText : JVal
  score : ScoreView
  sources : List SourceItem

/-- The fallback sentence of popup.js line 57. -/
def unverifiedSummary : JStr :=
  "The service could not verify this claim based on immediate search results.".toList

/-- The ring colour of popup.js lines 67-70. -/
def ringColor (score : JVal) : Except JsError JStr :=
  match gtNumber score 70 with
  | .error e => .error e
  | .ok true => .ok "#4CAF50".toList
  | .ok false =>
    match gtNumber score 40 with
    | .error e => .error e
    | .ok true => .ok "#FFC107".toList
    | .ok false => .ok "#F44336".toList

/-- The score part of `displayResults` (popup.js lines 52-79). -/
def scoreView (result : JVal) : Except JsError ScoreView :=
  match getProp result "reliability_score".toList, getProp result "summary".toList with
  | .error e, _ => .error e
  | _, .error e => .error e
  | .ok score, .ok summary =>
    if !truthy score || strictEqZero score then
      .ok { icon := some "❓".toList
            background := "conic-gradient(#FFC107 0%, #ddd 0%)".toList
            scoreText := "--".toList
            summary := if truthy summary then summary else .str unverifiedSummary
            removedClasses := ["score-ring".toList]
            addedClasses := ["bg-yellow-100".toList, "text-4xl".toList, "p-4".toList,
              "rounded-full".toList]
            scoreTextAppended := false }
    else
      match toStr score, ringColor score with
      | .error e, _ => .error e
      | _, .error e => .error e
      | .ok shown, .ok color =>
        .ok { icon := none
              background := "conic-gradient(".toList ++ color ++ ' ' :: shown
                ++ "%, #ddd ".toList ++ shown ++ "%)".toList
              scoreText := shown ++ "%".toList
              summary := summary
              removedClasses := []
              addedClasses := []
              scoreTextAppended := true }

/-- The item made for one element of `sources` (popup.js lines 85-94). -/
def sourceItem (source : JVal) : Except JsError SourceItem :=
  match getProp source "url".toList, getProp source "title".toList with
  | .error e, _ => .error e
  | _, .error e => .error e
  | .ok url, .ok title =>
    match toStr url, toStr title with
    | .error e, _ => .error e
    | _, .error e => .error e
    | .ok u, .ok t => .ok (.link "flex items-start text-sm".toList (linkMarkup u t u))

/-- The items made by `forEach` for the elements of an array, in order. -/
def sourceItems : List JVal → Except JsError (List SourceItem)
  | [] => .ok []
  | source :: rest =>
    match sourceItem source, sourceItems rest with
    | .error e, _ => .error e
    | _, .error e => .error e
    | .ok item, .ok items => .ok (item :: items)

/-- The empty-state item (popup.js lines 97-100). -/
def noSourcesItem : SourceItem :=
  .note "text-sm text-gray-500 italic".toList
    "No specific sources were cited for this summary.".toList

/-- The source list part of `displayResults` (popup.js lines 81-101). Only an array has
`forEach`; on any other value with a positive `length` the call throws. -/
def sourcesView (result : JVal) : Except JsError (List SourceItem) :=
  match getProp result "sources".toList with
  | .error e => .error e
  | .ok sources =>
    if !truthy sources then .ok [noSourcesItem]
    else
      match getProp sources "length".toList with
      | .error e => .error e
      | .ok len =>
        match gtNumber len 0 with
        | .error e => .error e
        | .ok false => .ok [noSourcesItem]
        | .ok true =>
          match sources with
          | .arr items => sourceItems items
          | _ => .error ⟨"result.sources.forEach is not a function".toList⟩

/-- The function `displayResults` (popup.js lines 49-102). -/
def displayResults (text result : JVal) : Except JsError ResultView :=
  match scoreView result with
  | .error e => .error e
  | .ok score =>
    match sourcesView result with
    | .error e => .error e
    | .ok sources => .ok { selectedText := text, score := score, sources := sources }

/-- Which section `initializePopup` leaves visible. -/
inductive PopupView where
  | analyzing
  | results (view : ResultView)
  | idle

/-- The storage callback of `initializePopup` (popup.js lines 24-46), on the stored state. -/
def initializePopup (st : Storage) : Except JsError PopupView :=
  if truthy (lookupField "isAnalyzing".toList st) then .ok .analyzing
  else if truthy (lookupField "analysisResult".toList st) then
    (displayResults (lookupField "lastSelectedText".toList st)
      (lookupField "analysisResult".toList st)).map .results
  else .ok .idle

/-- A relay cycle against the proxy: the click is dispatched, the proxy handles the request
whose `text` is the selected text with upstream behaviour `ai`, and the relay settles with the
proxy's response (serialised as `bodyText`). `none` when the handler sends no response. -/
def endToEnd (ai : JStr → Upstream) (selectedText : JStr) (tabId : Nat) (bodyText : JStr)
    (b : Browser) : Option Browser :=
  match (factCheckHandler ai (.obj [("text".toList, .str selectedText)])).result with
  | .ok r => some (settle (fetchOutcomeOf r bodyText) tabId (dispatch selectedText tabId b))
  | .error _ => none

/-! ## Properties named by the specification -/

/-- The exact value of a number. -/
def JNum.value (x : JNum) : ℚ := x.mant * (10 : ℚ) ^ x.exp

/-- The value is an object that has every one of the named properties. -/
def hasKeys (names : List JStr) : JVal → Prop
  | .obj fields => ∀ k ∈ names, hasField k fields = true
  | _ => False

/-- The value is a JSON object containing the fields `score`, `summary` and `sources`. -/
def isAnalysisResult (v : JVal) : Prop :=
  hasKeys ["score".toList, "summary".toList, "sources".toList] v

/-- The response is a well-formed error payload: status 500 with `error` and `details`. -/
def isErrorPayload (r : Response) : Prop :=
  r.status = 500 ∧ hasKeys ["error".toList, "details".toList] r.body

/-- The ring colour the specification gives for a score `s`: green when `s > 70`, yellow when
`40 < s <= 70`, red when `s <= 40`. -/
def thresholdColor (s : JNum) : JStr :=
  if 70 < s.value then "#4CAF50".toList
  else if 40 < s.value ∧ s.value ≤ 70 then "#FFC107".toList
  else "#F44336".toList

/-- The neutral "unverified" rendering of the specification: the icon, `--` as score text, the
summary or the fixed fallback sentence, and no ring. -/
def isUnverifiedView (summary : JVal) (v : ScoreView) : Prop :=
  v.icon = some "❓".toList ∧ v.scoreText = "--".toList
    ∧ v.summary = (if truthy summary then summary else .str unverifiedSummary)
    ∧ v.background = "conic-gradient(#FFC107 0%, #ddd 0%)".toList
    ∧ v.removedClasses = ["score-ring".toList] ∧ v.scoreTextAppended = false

/-- The score ring of the specification: the score text is the shown score followed by `%`,
placed inside the ring, and the ring is drawn in the given colour up to the score. -/
def isScoreRing (color shown : JStr) (summary : JVal) (v : ScoreView) : Prop :=
  v.icon = none ∧ v.scoreText = shown ++ "%".toList
    ∧ v.background = "conic-gradient(".toList ++ color ++ ' ' :: shown
      ++ "%, #ddd ".toList ++ shown ++ "%)".toList
    ∧ v.summary = summary ∧ v.removedClasses = [] ∧ v.scoreTextAppended = true

/-- The value of `reliability_score` for an absent score or a number. -/
def presentedScore : Option JNum → JVal
  | none => .undefined
  | some n => .num n

/-- The rendering the specification gives for a score that is absent or a number `s`: the
placeholder when `s` is absent or zero, and otherwise the ring in the threshold colour with the
text `s%`. -/
def rendersScore (s : Option JNum) (summary : JVal) (v : ScoreView) : Prop :=
  match s with
  | none => isUnverifiedView summary v
  | some n =>
    if n.value = 0 then isUnverifiedView summary v
    else isScoreRing (thresholdColor n) n.toStr summary v

/-- The upstream completion of the specification's concrete scenario. -/
def scenarioCompletion : JStr :=
  ("\x7b\"score\":2,\"summary\":\"Contradicted by scientific consensus.\",".toList
    ++ "\"sources\":[\"https://nasa.gov/...\"]\x7d".toList)

/-- The object of the specification's concrete scenario. -/
def scenarioResult : JVal :=
  .obj [("score".toList, .num ⟨2, 0⟩),
    ("summary".toList, .str "Contradicted by scientific consensus.".toList),
    ("sources".toList, .arr [.str "https://nasa.gov/...".toList])]

/-- The source entry whose link target, title and shown URL are all the text `undefined`. -/
def undefinedLink : SourceItem :=
  .link "flex items-start text-sm".toList
    (linkMarkup "undefined".toList "undefined".toList "undefined".toList)

end FactCheck

namespace FactCheck

/-! ## Own properties -/

theorem lookupField_setField_same (k : JStr) (v : JVal) (fields : List (JStr × JVal)) :
    lookupField k (setField k v fields) = v := by
  induction fields with
  | nil => simp [setField, lookupField]
  | cons p rest ih =>
    obtain ⟨k', v'⟩ := p
    by_cases h : k' = k
    · simp [setField, lookupField, h]
    · simp [setField, lookupField, h, ih]

theorem lookupField_setField_other (k k' : JStr) (v : JVal) (fields : List (JStr × JVal))
    (h : k' ≠ k) : lookupField k (setField k' v fields) = lookupField k fields := by
  induction fields with
  | nil => simp [setField, lookupField, h]
  | cons p rest ih =>
    obtain ⟨k'', v''⟩ := p
    by_cases h1 : k'' = k'
    · subst h1
      simp [setField, lookupField, h]
    · by_cases h2 : k'' = k
      · subst h2
        have h3 : ¬ k'' = k' := h1
        simp [setField, lookupField, h3]
      · simp [setField, lookupField, h1, h2, ih]

/-! ## The proxy endpoint -/

/-- C1: a request body without a `text` property, or with the empty string as `text`, is
answered with status 400 and exactly the body whose only property `error` is
"No text provided for fact-checking.", and no upstream call is made. -/
theorem missing_text_rejected (ai : JStr → Upstream) (reqBody : JVal)
    (h : getProp reqBody "text".toList = .ok .undefined
      ∨ getProp reqBody "text".toList = .ok (.str [])) :
    factCheckHandler ai reqBody
      = ⟨[], .ok ⟨400, .obj [("error".toList,
          .str "No text provided for fact-checking.".toList)]⟩⟩ := by
  cases reqBody with
  | undefined => rcases h with h | h <;> cases h
  | null => rcases h with h | h <;> cases h
  | bool b => unfold factCheckHandler; rcases h with h | h <;> simp only [] <;> rw [h] <;> rfl
  | num n => unfold factCheckHandler; rcases h with h | h <;> simp only [] <;> rw [h] <;> rfl
  | str s => unfold factCheckHandler; rcases h with h | h <;> simp only [] <;> rw [h] <;> rfl
  | arr items =>
    unfold factCheckHandler; rcases h with h | h <;> simp only [] <;> rw [h] <;> rfl
  | obj fields =>
    unfold factCheckHandler; rcases h with h | h <;> simp only [] <;> rw [h] <;> rfl

theorem missing_text_rejected_witness :
    factCheckHandler (fun _ => .throws []) (.obj [("note".toList, .str "x".toList)])
      = ⟨[], .ok ⟨400, .obj [("error".toList,
          .str "No text provided for fact-checking.".toList)]⟩⟩ :=
  missing_text_rejected (fun _ => .throws []) (.obj [("note".toList, .str "x".toList)])
    (Or.inl rfl)

theorem handler_on_text (ai : JStr → Upstream) (fields : List (JStr × JVal)) (s : JStr)
    (htext : lookupField "text".toList fields = .str s) (hs : s ≠ []) :
    factCheckHandler ai (.obj fields)
      = ⟨[buildPrompt s], .ok (respondTo (ai (buildPrompt s)))⟩ := by
  cases s with
  | nil => exact absurd rfl hs
  | cons c cs =>
    unfold factCheckHandler
    simp only [getProp]
    rw [htext]
    rfl

/-- C3: for a request with a non-empty `text` and an upstream completion `t` whose trimmed,
fence-stripped form is not valid JSON, the response has status 500, its `details` is
"AI returned malformed JSON." and its `raw_ai_response` is exactly `trim t`. -/
theorem malformed_completion_reported (ai : JStr → Upstream) (fields : List (JStr × JVal))
    (s t : JStr) (htext : lookupField "text".toList fields = .str s) (hs : s ≠ [])
    (hai : ai (buildPrompt s) = .returns (some t))
    (hbad : jsonParse (stripClosingFence (stripOpeningFence (trim t))) = none) :
    ∃ body, (factCheckHandler ai (.obj fields)).result = .ok ⟨500, .obj body⟩
      ∧ lookupField "details".toList body = .str "AI returned malformed JSON.".toList
      ∧ lookupField "raw_ai_response".toList body = .str (trim t) := by
  refine ⟨[("error".toList, .str "Internal server error during AI analysis.".toList),
    ("details".toList, .str "AI returned malformed JSON.".toList),
    ("raw_ai_response".toList, .str (trim t))], ?_, rfl, rfl⟩
  rw [handler_on_text ai fields s htext hs, hai]
  simp only [respondTo, sanitizeAndParse, hbad, malformedBody]

theorem malformed_completion_reported_witness :
    ∃ body, (factCheckHandler (fun _ => .returns (some "  The claim is false. ".toList))
        (.obj [("text".toList, .str "The Earth is flat.".toList)])).result
        = .ok ⟨500, .obj body⟩
      ∧ lookupField "details".toList body = .str "AI returned malformed JSON.".toList
      ∧ lookupField "raw_ai_response".toList body = .str (trim "  The claim is false. ".toList) :=
  malformed_completion_reported (fun _ => .returns (some "  The claim is false. ".toList))
    [("text".toList, .str "The Earth is flat.".toList)] "The Earth is flat.".toList
    "  The claim is false. ".toList rfl (by decide) rfl rfl

/-- C4, as the specification states it, fails: when the upstream completion is the empty JSON
object, the response has status 200 and a body without `score`, `summary` and `sources`, so it
is neither a 200 analysis result nor a 500 error payload. -/
theorem unvalidated_success_counterexample :
    ¬ ∃ r, (factCheckHandler (fun _ => .returns (some "\x7b\x7d".toList))
          (.obj [("text".toList, .str "The Earth is flat.".toList)])).result = .ok r
        ∧ ((r.status = 200 ∧ isAnalysisResult r.body) ∨ isErrorPayload r) := by
  rintro ⟨r, hr, h⟩
  have hrun : (factCheckHandler (fun _ => .returns (some "\x7b\x7d".toList))
      (.obj [("text".toList, .str "The Earth is flat.".toList)])).result
      = .ok ⟨200, .obj []⟩ := rfl
  rw [hrun] at hr
  cases hr
  rcases h with ⟨_, h⟩ | ⟨h, _⟩
  · have := h "score".toList (List.mem_cons_self _ _)
    simp [hasField] at this
  · simp at h

/-- C4, amended: for a request with a non-empty `text` and any behaviour of the upstream call,
the handler makes one upstream call and sends one response (no exception leaves it): either
status 200 with the value parsed from the trimmed, fence-stripped completion, whatever its
fields, or status 500 with `error` and `details`. -/
theorem handler_always_responds (ai : JStr → Upstream) (fields : List (JStr × JVal))
    (s : JStr) (htext : lookupField "text".toList fields = .str s) (hs : s ≠ []) :
    ∃ r, (factCheckHandler ai (.obj fields)).result = .ok r
      ∧ (factCheckHandler ai (.obj fields)).aiCalls = [buildPrompt s]
      ∧ ((r.status = 200 ∧ ∃ t, ai (buildPrompt s) = .returns (some t)
            ∧ jsonParse (stripClosingFence (stripOpeningFence (trim t))) = some r.body)
          ∨ isErrorPayload r) := by
  rw [handler_on_text ai fields s htext hs]
  refine ⟨_, rfl, rfl, ?_⟩
  cases hai : ai (buildPrompt s) with
  | throws message =>
    right
    refine ⟨rfl, ?_⟩
    intro k hk
    simp at hk
    rcases hk with rfl | rfl <;> rfl
  | returns text =>
    cases text with
    | none =>
      right
      refine ⟨rfl, ?_⟩
      intro k hk
      simp at hk
      rcases hk with rfl | rfl <;> rfl
    | some t =>
      cases hp : sanitizeAndParse (trim t) with
      | some v =>
        left
        rw [show respondTo (.returns (some t)) = ⟨200, v⟩ by simp only [respondTo, hp]]
        exact ⟨rfl, t, rfl, hp⟩
      | none =>
        right
        rw [show respondTo (.returns (some t)) = ⟨500, malformedBody (trim t)⟩ by
          simp only [respondTo, hp]]
        refine ⟨rfl, ?_⟩
        intro k hk
        simp at hk
        rcases hk with rfl | rfl <;> rfl

theorem handler_always_responds_witness :
    ∃ r, (factCheckHandler (fun _ => .returns (some "\x7b\x7d".toList))
          (.obj [("text".toList, .str "The Earth is flat.".toList)])).result = .ok r
      ∧ (factCheckHandler (fun _ => .returns (some "\x7b\x7d".toList))
          (.obj [("text".toList, .str "The Earth is flat.".toList)])).aiCalls
          = [buildPrompt "The Earth is flat.".toList]
      ∧ ((r.status = 200 ∧ ∃ t, (fun _ => Upstream.returns (some "\x7b\x7d".toList))
              (buildPrompt "The Earth is flat.".toList) = .returns (some t)
            ∧ jsonParse (stripClosingFence (stripOpeningFence (trim t))) = some r.body)
          ∨ isErrorPayload r) :=
  handler_always_responds (fun _ => .returns (some "\x7b\x7d".toList))
    [("text".toList, .str "The Earth is flat.".toList)] "The Earth is flat.".toList rfl
    (by decide)


/-! ## White space and the lexer -/

theorem space_ne (c d : Char) (h : isJsSpace c = true) (hd : isJsSpace d = false) : c ≠ d := by
  rintro rfl
  rw [h] at hd
  cases hd

theorem space_not_digit (c : Char) (h : isJsSpace c = true) : isDigit c = false := by
  simp only [isJsSpace, isDigit, Bool.or_eq_true, Bool.and_eq_true, beq_iff_eq,
    decide_eq_true_eq] at h
  simp only [isDigit, Bool.and_eq_false_iff, decide_eq_false_iff_not]
  omega

theorem space_not_numChar (c : Char) (h : isJsSpace c = true) : isNumChar c = false := by
  have h1 := space_not_digit c h
  have h2 := space_ne c '-' h (by decide)
  have h3 := space_ne c '+' h (by decide)
  have h4 := space_ne c '.' h (by decide)
  have h5 := space_ne c 'e' h (by decide)
  have h6 := space_ne c 'E' h (by decide)
  simp [isNumChar, h1, h2, h3, h4, h5, h6]

theorem stepStart_space (c : Char) (h : isJsSpace c = true) :
    stepStart c = if isJsonSpace c then some (.start, []) else none := by
  have h1 := space_not_digit c h
  have a1 := space_ne c '{' h (by decide)
  have a2 := space_ne c '}' h (by decide)
  have a3 := space_ne c '[' h (by decide)
  have a4 := space_ne c ']' h (by decide)
  have a5 := space_ne c ':' h (by decide)
  have a6 := space_ne c ',' h (by decide)
  have a7 := space_ne c '"' h (by decide)
  have a8 := space_ne c '-' h (by decide)
  have a9 := space_ne c 't' h (by decide)
  have a10 := space_ne c 'f' h (by decide)
  have a11 := space_ne c 'n' h (by decide)
  simp [stepStart, h1, a1, a2, a3, a4, a5, a6, a7, a8, a9, a10, a11]

theorem spelling_not_space (name : Lit) (c : Char) (h : c ∈ name.spelling) :
    isJsSpace c = false := by
  cases name with
  | ltrue =>
    simp only [Lit.spelling, String.toList, List.mem_cons, List.mem_nil_iff, or_false] at h
    rcases h with rfl | rfl | rfl | rfl <;> decide
  | lfalse =>
    simp only [Lit.spelling, String.toList, List.mem_cons, List.mem_nil_iff, or_false] at h
    rcases h with rfl | rfl | rfl | rfl | rfl <;> decide
  | lnull =>
    simp only [Lit.spelling, String.toList, List.mem_cons, List.mem_nil_iff, or_false] at h
    rcases h with rfl | rfl | rfl | rfl <;> decide

theorem lexStep_space (st st' : LexState) (c : Char) (emitted more : List Token)
    (h : isJsSpace c = true) (hstep : lexStep st c = some (st', emitted))
    (hfin : lexFinish st' = some more) : lexFinish st = some (emitted ++ more) := by
  cases st with
  | start =>
    simp only [lexStep, stepStart_space c h] at hstep
    split at hstep
    · cases hstep
      exact hfin
    · cases hstep
  | inStr acc =>
    simp only [lexStep] at hstep
    have a1 := space_ne c '"' h (by decide)
    have a2 := space_ne c '\\' h (by decide)
    simp only [a1, a2, if_false] at hstep
    split at hstep
    · cases hstep
    · cases hstep
      cases hfin
  | inEsc acc =>
    simp only [lexStep] at hstep
    split at hstep
    · cases hstep
      cases hfin
    · cases hu : unescape c with
      | none => simp [hu] at hstep
      | some d =>
        simp [hu] at hstep
        obtain ⟨rfl, rfl⟩ := hstep
        cases hfin
  | inHex acc digits =>
    simp only [lexStep] at hstep
    split at hstep
    · cases hstep
    · split at hstep
      · cases hstep
        cases hfin
      · cases hstep
        cases hfin
  | inNum acc =>
    simp only [lexStep, space_not_numChar c h, stepStart_space c h] at hstep
    cases hn : parseJsonNumber acc.reverse with
    | none => simp [hn] at hstep
    | some n =>
      by_cases hj : isJsonSpace c = true
      · simp [hn, hj] at hstep
        obtain ⟨rfl, rfl⟩ := hstep
        cases hfin
        simp [lexFinish, hn]
      · simp [hn, hj] at hstep
  | inLit name seen =>
    simp only [lexStep] at hstep
    split at hstep
    · cases hstep
    · rename_i x hx
      have hmem : x ∈ name.spelling := List.mem_of_mem_drop (hx ▸ List.mem_cons_self _ _)
      have := spelling_not_space name x hmem
      split at hstep
      · rename_i hc
        subst hc
        rw [h] at this
        cases this
      · cases hstep
    · split at hstep
      · cases hstep
        cases hfin
      · cases hstep

theorem lexFrom_cons_some (st : LexState) (c : Char) (cs : JStr) (toks : List Token)
    (h : lexFrom st (c :: cs) = some toks) :
    ∃ st' emitted more, lexStep st c = some (st', emitted) ∧ lexFrom st' cs = some more
      ∧ toks = emitted ++ more := by
  simp only [lexFrom] at h
  cases hs : lexStep st c with
  | none => simp [hs] at h
  | some p =>
    obtain ⟨st', emitted⟩ := p
    simp only [hs] at h
    cases hm : lexFrom st' cs with
    | none => simp [hm] at h
    | some more =>
      simp [hm] at h
      exact ⟨st', emitted, more, rfl, hm, h.symm⟩

/-- White space at the end of a text that lexes can be dropped. -/
theorem lexFrom_spaces (tail : JStr) (hsp : ∀ c ∈ tail, isJsSpace c = true) (st : LexState)
    (toks : List Token) (h : lexFrom st tail = some toks) : lexFinish st = some toks := by
  induction tail generalizing st toks with
  | nil => exact h
  | cons c tl ih =>
    obtain ⟨st', emitted, more, hstep, hrest, rfl⟩ := lexFrom_cons_some st c tl toks h
    have hfin := ih (fun d hd => hsp d (List.mem_cons_of_mem _ hd)) st' more hrest
    exact lexStep_space st st' c emitted more (hsp c (List.mem_cons_self _ _)) hstep hfin

theorem lexFrom_append_spaces (cs tail : JStr) (hsp : ∀ c ∈ tail, isJsSpace c = true)
    (st : LexState) (toks : List Token) (h : lexFrom st (cs ++ tail) = some toks) :
    lexFrom st cs = some toks := by
  induction cs generalizing st toks with
  | nil => exact lexFrom_spaces tail hsp st toks h
  | cons c cs ih =>
    obtain ⟨st', emitted, more, hstep, hrest, rfl⟩ :=
      lexFrom_cons_some st c (cs ++ tail) toks h
    simp only [lexFrom, hstep, ih st' more hrest, Option.map_some']

/-- White space in front of a text that lexes can be dropped. -/
theorem lex_dropWhile (cs : JStr) (toks : List Token) (h : lex cs = some toks) :
    lex (cs.dropWhile isJsSpace) = some toks := by
  induction cs generalizing toks with
  | nil => exact h
  | cons c cs ih =>
    by_cases hc : isJsSpace c = true
    · rw [List.dropWhile_cons_of_pos hc]
      obtain ⟨st', emitted, more, hstep, hrest, rfl⟩ := lexFrom_cons_some .start c cs toks h
      simp only [lexStep, stepStart_space c hc] at hstep
      split at hstep
      · cases hstep
        exact ih more hrest
      · cases hstep
    · rw [List.dropWhile_cons_of_neg hc]
      exact h


/-! ## Fence stripping -/

theorem lexStep_tick (st st' : LexState) (emitted : List Token)
    (h : lexStep st (Char.ofNat 96) = some (st', emitted)) : lexFinish st' = none := by
  cases st with
  | start => cases h
  | inStr acc =>
    simp only [lexStep] at h
    cases h
    rfl
  | inEsc acc => cases h
  | inHex acc digits => cases h
  | inNum acc =>
    have h1 : isNumChar (Char.ofNat 96) = false := by decide
    have h2 : stepStart (Char.ofNat 96) = none := rfl
    simp only [lexStep, h1, h2] at h
    split at h <;> simp_all
  | inLit name seen =>
    simp only [lexStep] at h
    split at h
    · cases h
    · rename_i x hx
      have hmem : x ∈ name.spelling := List.mem_of_mem_drop (hx ▸ List.mem_cons_self _ _)
      split at h
      · rename_i hc
        subst hc
        cases name <;> simp [Lit.spelling] at hmem
      · cases h
    · split at h
      · cases h
        rfl
      · cases h

/-- A text that ends in a backtick does not lex. -/
theorem lexFrom_append_tick (cs : JStr) (st : LexState) :
    lexFrom st (cs ++ [Char.ofNat 96]) = none := by
  induction cs generalizing st with
  | nil =>
    simp only [List.nil_append, lexFrom]
    cases hs : lexStep st (Char.ofNat 96) with
    | none => rfl
    | some p =>
      obtain ⟨st', emitted⟩ := p
      simp [lexStep_tick st st' emitted hs]
  | cons c cs ih =>
    simp only [List.cons_append, lexFrom]
    cases hs : lexStep st c with
    | none => rfl
    | some p =>
      obtain ⟨st', emitted⟩ := p
      simp [ih st']

theorem isPrefixOf_append (p rest : JStr) : p.isPrefixOf (p ++ rest) = true := by
  induction p with
  | nil => simp [List.isPrefixOf]
  | cons c p ih => simp [List.isPrefixOf, ih]

theorem append_of_isPrefixOf (p s : JStr) (h : p.isPrefixOf s = true) : ∃ t, s = p ++ t := by
  induction p generalizing s with
  | nil => exact ⟨s, rfl⟩
  | cons c p ih =>
    cases s with
    | nil => simp [List.isPrefixOf] at h
    | cons d s =>
      simp only [List.isPrefixOf, Bool.and_eq_true, beq_iff_eq] at h
      obtain ⟨t, ht⟩ := ih s h.2
      exact ⟨t, by rw [h.1, ht]; rfl⟩

theorem dropWhile_append_all (p : Char → Bool) (a b : JStr) (h : ∀ x ∈ a, p x = true) :
    (a ++ b).dropWhile p = b.dropWhile p := by
  induction a with
  | nil => rfl
  | cons x a ih =>
    rw [List.cons_append, List.dropWhile_cons_of_pos (h x (List.mem_cons_self _ _))]
    exact ih (fun y hy => h y (List.mem_cons_of_mem _ hy))

theorem dropWhile_append_keep (p : Char → Bool) (a b : JStr) (h : a.dropWhile p ≠ []) :
    (a ++ b).dropWhile p = a.dropWhile p ++ b := by
  induction a with
  | nil => exact absurd rfl h
  | cons x a ih =>
    by_cases hx : p x = true
    · rw [List.cons_append, List.dropWhile_cons_of_pos hx, List.dropWhile_cons_of_pos hx]
      rw [List.dropWhile_cons_of_pos hx] at h
      exact ih h
    · rw [List.cons_append, List.dropWhile_cons_of_neg hx, List.dropWhile_cons_of_neg hx]
      rfl

theorem trimEnd_append_spaces (s : JStr) :
    ∃ tail, (∀ c ∈ tail, isJsSpace c = true) ∧ s = trimEnd s ++ tail := by
  refine ⟨(s.reverse.takeWhile isJsSpace).reverse, ?_, ?_⟩
  · intro c hc
    exact List.mem_takeWhile_imp (List.mem_reverse.mp hc)
  · have h := List.takeWhile_append_dropWhile isJsSpace s.reverse
    have h2 := congrArg List.reverse h
    rw [List.reverse_append, List.reverse_reverse] at h2
    exact h2.symm

theorem lex_trim (j : JStr) (toks : List Token) (h : lex j = some toks) :
    lex (trim j) = some toks := by
  have h1 := lex_dropWhile j toks h
  obtain ⟨tail, hsp, htail⟩ := trimEnd_append_spaces (trimStart j)
  have h2 : lexFrom .start (trimEnd (trimStart j) ++ tail) = some toks := by
    rw [← htail]
    exact h1
  exact lexFrom_append_spaces _ tail hsp .start toks h2

theorem jsonParse_some_lex (j : JStr) (v : JVal) (h : jsonParse j = some v) :
    ∃ toks, lex j = some toks ∧ parseTokens .value [] toks = some v := by
  unfold jsonParse at h
  cases hl : lex j with
  | none => simp [hl] at h
  | some toks =>
    simp only [hl] at h
    exact ⟨toks, rfl, h⟩

/-- Trimming a valid JSON text does not change what it parses to. -/
theorem jsonParse_trim (j : JStr) (v : JVal) (h : jsonParse j = some v) :
    jsonParse (trim j) = some v := by
  obtain ⟨toks, hl, hp⟩ := jsonParse_some_lex j v h
  unfold jsonParse
  rw [lex_trim j toks hl]
  exact hp

theorem trimStart_ne_nil (j : JStr) (v : JVal) (h : jsonParse j = some v) :
    trimStart j ≠ [] := by
  obtain ⟨toks, hl, hp⟩ := jsonParse_some_lex j v h
  have h1 := lex_dropWhile j toks hl
  intro hnil
  unfold trimStart at hnil
  rw [hnil] at h1
  cases h1
  cases hp

theorem stripOpeningFence_valid (s : JStr) (v : JVal) (h : jsonParse s = some v) :
    stripOpeningFence s = s := by
  unfold stripOpeningFence
  split
  · rename_i hp
    obtain ⟨t, ht⟩ := append_of_isPrefixOf _ _ hp
    obtain ⟨toks, hl, _⟩ := jsonParse_some_lex s v h
    rw [ht] at hl
    cases hl
  · rfl

theorem stripClosingFence_valid (s : JStr) (v : JVal) (h : jsonParse s = some v) :
    stripClosingFence s = s := by
  unfold stripClosingFence
  split
  · rename_i hp
    obtain ⟨t, ht⟩ := append_of_isPrefixOf _ _ hp
    obtain ⟨toks, hl, _⟩ := jsonParse_some_lex s v h
    have hs : s = (t.reverse ++ [Char.ofNat 96, Char.ofNat 96]) ++ [Char.ofNat 96] := by
      have h2 := congrArg List.reverse ht
      rw [List.reverse_append, List.reverse_reverse, List.reverse_reverse] at h2
      rw [h2]
      simp [fenceClose]
    rw [hs] at hl
    unfold lex at hl
    rw [lexFrom_append_tick] at hl
    cases hl
  · rfl

theorem trim_fenced (body : JStr) : trim (fenceOpen ++ body ++ fenceClose)
    = fenceOpen ++ body ++ fenceClose := by
  have h1 : trimStart (fenceOpen ++ body ++ fenceClose) = fenceOpen ++ body ++ fenceClose := by
    unfold trimStart
    exact List.dropWhile_cons_of_neg (by decide)
  unfold trim
  rw [h1]
  unfold trimEnd
  have h2 : (fenceOpen ++ body ++ fenceClose).reverse
      = Char.ofNat 96 :: (Char.ofNat 96 :: Char.ofNat 96 :: (fenceOpen ++ body).reverse) := by
    rw [List.reverse_append]
    rfl
  rw [h2, List.dropWhile_cons_of_neg (by decide), ← h2, List.reverse_reverse]

theorem stripOpeningFence_fenced (rest : JStr) :
    stripOpeningFence (fenceOpen ++ rest) = rest.dropWhile isJsSpace := by
  unfold stripOpeningFence
  rw [if_pos (isPrefixOf_append _ _)]
  rw [List.drop_left]

theorem stripClosingFence_fenced (core w2 : JStr) (h2 : ∀ c ∈ w2, isJsSpace c = true) :
    stripClosingFence (core ++ w2 ++ fenceClose) = trimEnd core := by
  unfold stripClosingFence
  have hr : (core ++ w2 ++ fenceClose).reverse
      = fenceClose.reverse ++ (w2.reverse ++ core.reverse) := by
    simp [List.reverse_append]
  rw [hr, if_pos (isPrefixOf_append _ _)]
  have hl : fenceClose.length = fenceClose.reverse.length := by simp
  rw [hl, List.drop_left]
  rw [dropWhile_append_all isJsSpace w2.reverse core.reverse
    (fun x hx => h2 x (List.mem_reverse.mp hx))]
  rfl

/-- The sanitise step on a fenced text leaves the trimmed inner text. -/
theorem sanitize_fenced (j w1 w2 : JStr) (hne : trimStart j ≠ [])
    (h1 : ∀ c ∈ w1, isJsSpace c = true) (h2 : ∀ c ∈ w2, isJsSpace c = true) :
    stripClosingFence (stripOpeningFence (trim (fenceOpen ++ w1 ++ j ++ w2 ++ fenceClose)))
      = trim j := by
  have e1 : fenceOpen ++ w1 ++ j ++ w2 ++ fenceClose
      = fenceOpen ++ (w1 ++ j ++ w2) ++ fenceClose := by simp [List.append_assoc]
  rw [e1, trim_fenced]
  have e2 : fenceOpen ++ (w1 ++ j ++ w2) ++ fenceClose
      = fenceOpen ++ (w1 ++ (j ++ (w2 ++ fenceClose))) := by simp [List.append_assoc]
  rw [e2, stripOpeningFence_fenced, dropWhile_append_all isJsSpace w1 _ h1,
    dropWhile_append_keep isJsSpace j _ hne, ← List.append_assoc]
  exact stripClosingFence_fenced _ w2 h2

/-- C2: for a valid JSON text `j` and white-space runs `w1`, `w2`, the sanitise-and-parse step
succeeds on the fenced text and on the bare text `j` with the same parsed value, and both give
the same 200 response. -/
theorem fence_round_trip (j w1 w2 : JStr) (v : JVal) (hj : jsonParse j = some v)
    (h1 : ∀ c ∈ w1, isJsSpace c = true) (h2 : ∀ c ∈ w2, isJsSpace c = true) :
    sanitizeAndParse (trim (fenceOpen ++ w1 ++ j ++ w2 ++ fenceClose)) = some v
      ∧ sanitizeAndParse (trim j) = some v
      ∧ respondTo (.returns (some (fenceOpen ++ w1 ++ j ++ w2 ++ fenceClose))) = ⟨200, v⟩
      ∧ respondTo (.returns (some j)) = ⟨200, v⟩ := by
  have ht := jsonParse_trim j v hj
  have hf : sanitizeAndParse (trim (fenceOpen ++ w1 ++ j ++ w2 ++ fenceClose)) = some v := by
    unfold sanitizeAndParse
    rw [sanitize_fenced j w1 w2 (trimStart_ne_nil j v hj) h1 h2]
    exact ht
  have hb : sanitizeAndParse (trim j) = some v := by
    unfold sanitizeAndParse
    rw [stripOpeningFence_valid (trim j) v ht, stripClosingFence_valid (trim j) v ht]
    exact ht
  refine ⟨hf, hb, ?_, ?_⟩
  · simp only [respondTo, hf]
  · simp only [respondTo, hb]

theorem fence_round_trip_witness :
    sanitizeAndParse (trim (fenceOpen ++ "\n".toList ++ "\x7b\"score\": 2\x7d".toList
        ++ " \n".toList ++ fenceClose)) = some (.obj [("score".toList, .num ⟨2, 0⟩)])
      ∧ sanitizeAndParse (trim "\x7b\"score\": 2\x7d".toList)
        = some (.obj [("score".toList, .num ⟨2, 0⟩)])
      ∧ respondTo (.returns (some (fenceOpen ++ "\n".toList ++ "\x7b\"score\": 2\x7d".toList
        ++ " \n".toList ++ fenceClose))) = ⟨200, .obj [("score".toList, .num ⟨2, 0⟩)]⟩
      ∧ respondTo (.returns (some "\x7b\"score\": 2\x7d".toList))
        = ⟨200, .obj [("score".toList, .num ⟨2, 0⟩)]⟩ :=
  fence_round_trip "\x7b\"score\": 2\x7d".toList "\n".toList " \n".toList
    (.obj [("score".toList, .num ⟨2, 0⟩)]) rfl (by decide) (by decide)


/-! ## The extension relay -/

theorem storage_after_dispatch (selectedText : JStr) (tabId : Nat) (b : Browser) :
    lookupField "lastSelectedText".toList (dispatch selectedText tabId b).storage
        = .str selectedText
      ∧ lookupField "analysisResult".toList (dispatch selectedText tabId b).storage = .null
      ∧ lookupField "isAnalyzing".toList (dispatch selectedText tabId b).storage
        = .bool true := by
  simp only [dispatch, storageSet, List.foldl]
  refine ⟨?_, ?_, ?_⟩
  · rw [lookupField_setField_other _ _ _ _ (by decide),
      lookupField_setField_other _ _ _ _ (by decide), lookupField_setField_same]
  · rw [lookupField_setField_other _ _ _ _ (by decide), lookupField_setField_same]
  · rw [lookupField_setField_same]

theorem storage_after_result (result : JVal) (st : Storage) :
    lookupField "lastSelectedText".toList
        (storageSet [("analysisResult".toList, result), ("isAnalyzing".toList, .bool false)] st)
        = lookupField "lastSelectedText".toList st
      ∧ lookupField "analysisResult".toList
        (storageSet [("analysisResult".toList, result), ("isAnalyzing".toList, .bool false)] st)
        = result
      ∧ lookupField "isAnalyzing".toList
        (storageSet [("analysisResult".toList, result), ("isAnalyzing".toList, .bool false)] st)
        = .bool false := by
  simp only [storageSet, List.foldl]
  refine ⟨?_, ?_, ?_⟩
  · rw [lookupField_setField_other _ _ _ _ (by decide),
      lookupField_setField_other _ _ _ _ (by decide)]
  · rw [lookupField_setField_other _ _ _ _ (by decide), lookupField_setField_same]
  · rw [lookupField_setField_same]

/-- What a settlement stores: the response body when the response is `ok` and its body reads
as JSON, the placeholder otherwise. -/
theorem settle_storage (out : FetchOutcome) (tabId : Nat) (b : Browser) :
    (settle out tabId b).storage
      = storageSet [("analysisResult".toList,
            match out with
            | .resolved true _ _ _ (.ok body) => body
            | _ => errorResult),
          ("isAnalyzing".toList, .bool false)] b.storage := by
  unfold settle
  cases out with
  | rejected e => rfl
  | resolved ok status statusText text json =>
    cases ok with
    | false => cases text <;> rfl
    | true => cases json <;> rfl

/-- C5: for every stored state and every click on the fact-check menu item with a non-empty
selection `s`, the listener first stores `lastSelectedText = trim s`, `analysisResult = null`
and `isAnalyzing = true`; when it finishes, `isAnalyzing` is `false`, `lastSelectedText` is
still `trim s`, and `analysisResult` is the response body if the response was `ok` with a body
that reads as JSON, and the fixed placeholder otherwise. -/
theorem analysis_cycle (b : Browser) (info : ClickInfo) (tabId : Nat) (out : FetchOutcome)
    (s : JStr) (hid : info.menuItemId = FACT_CHECK_MENU_ID)
    (hsel : info.selectionText = some s) (hs : s ≠ []) :
    onClicked info tabId out b = settle out tabId (dispatch (trim s) tabId b)
      ∧ lookupField "lastSelectedText".toList (dispatch (trim s) tabId b).storage
        = .str (trim s)
      ∧ lookupField "analysisResult".toList (dispatch (trim s) tabId b).storage = .null
      ∧ lookupField "isAnalyzing".toList (dispatch (trim s) tabId b).storage = .bool true
      ∧ lookupField "isAnalyzing".toList (onClicked info tabId out b).storage = .bool false
      ∧ lookupField "lastSelectedText".toList (onClicked info tabId out b).storage
        = .str (trim s)
      ∧ lookupField "analysisResult".toList (onClicked info tabId out b).storage
        = (match out with
          | .resolved true _ _ _ (.ok body) => body
          | _ => .obj [("reliability_score".toList, .num ⟨0, 0⟩),
              ("summary".toList, .str ("Could not connect to the fact-checking service. ".toList
                ++ "Please check your internet connection or try again later.".toList)),
              ("sources".toList, .arr [])]) := by
  have hacc : clickAccepted info = true := by
    cases s with
    | nil => exact absurd rfl hs
    | cons c cs => simp [clickAccepted, hid, hsel]
  have hrun : onClicked info tabId out b = settle out tabId (dispatch (trim s) tabId b) := by
    simp only [onClicked, hacc, if_true, selectedTextOf, hsel, Option.getD_some]
  obtain ⟨d1, d2, d3⟩ := storage_after_dispatch (trim s) tabId b
  refine ⟨hrun, d1, d2, d3, ?_, ?_, ?_⟩
  · rw [hrun, settle_storage]
    exact (storage_after_result _ _).2.2
  · rw [hrun, settle_storage, (storage_after_result _ _).1]
    exact d1
  · rw [hrun, settle_storage, (storage_after_result _ _).2.1]
    cases out with
    | rejected e => rfl
    | resolved ok status statusText text json =>
      cases ok with
      | false => rfl
      | true => cases json <;> rfl

theorem analysis_cycle_witness :
    onClicked ⟨FACT_CHECK_MENU_ID, some " The Earth is flat. ".toList⟩ 7
        (.rejected ⟨"Failed to fetch".toList⟩) Browser.initial
        = settle (.rejected ⟨"Failed to fetch".toList⟩) 7
          (dispatch (trim " The Earth is flat. ".toList) 7 Browser.initial)
      ∧ lookupField "lastSelectedText".toList
        (dispatch (trim " The Earth is flat. ".toList) 7 Browser.initial).storage
        = .str (trim " The Earth is flat. ".toList)
      ∧ lookupField "analysisResult".toList
        (dispatch (trim " The Earth is flat. ".toList) 7 Browser.initial).storage = .null
      ∧ lookupField "isAnalyzing".toList
        (dispatch (trim " The Earth is flat. ".toList) 7 Browser.initial).storage = .bool true
      ∧ lookupField "isAnalyzing".toList
        (onClicked ⟨FACT_CHECK_MENU_ID, some " The Earth is flat. ".toList⟩ 7
          (.rejected ⟨"Failed to fetch".toList⟩) Browser.initial).storage = .bool false
      ∧ lookupField "lastSelectedText".toList
        (onClicked ⟨FACT_CHECK_MENU_ID, some " The Earth is flat. ".toList⟩ 7
          (.rejected ⟨"Failed to fetch".toList⟩) Browser.initial).storage
        = .str (trim " The Earth is flat. ".toList)
      ∧ lookupField "analysisResult".toList
        (onClicked ⟨FACT_CHECK_MENU_ID, some " The Earth is flat. ".toList⟩ 7
          (.rejected ⟨"Failed to fetch".toList⟩) Browser.initial).storage
        = .obj [("reliability_score".toList, .num ⟨0, 0⟩),
            ("summary".toList, .str ("Could not connect to the fact-checking service. ".toList
              ++ "Please check your internet connection or try again later.".toList)),
            ("sources".toList, .arr [])] :=
  analysis_cycle Browser.initial ⟨FACT_CHECK_MENU_ID, some " The Earth is flat. ".toList⟩ 7
    (.rejected ⟨"Failed to fetch".toList⟩) " The Earth is flat. ".toList rfl rfl (by decide)

theorem reachable_storage (b : Browser) (h : Reachable b) :
    (lookupField "analysisResult".toList b.storage = .undefined
        ∧ lookupField "isAnalyzing".toList b.storage = .undefined)
      ∨ (lookupField "analysisResult".toList b.storage = .null
        ∧ lookupField "isAnalyzing".toList b.storage = .bool true)
      ∨ lookupField "isAnalyzing".toList b.storage = .bool false := by
  induction h with
  | initial => exact Or.inl ⟨rfl, rfl⟩
  | cycleStart b selectedText tabId _ _ =>
    obtain ⟨_, d2, d3⟩ := storage_after_dispatch selectedText tabId b
    exact Or.inr (Or.inl ⟨d2, d3⟩)
  | success b b' out tabId _ hrun _ =>
    right; right
    cases out with
    | rejected e => cases hrun
    | resolved ok status statusText text json =>
      cases ok with
      | false => cases text <;> cases hrun
      | true =>
        cases json with
        | error e => cases hrun
        | ok result =>
          simp only [runAIAnalysis, Except.ok.injEq] at hrun
          subst hrun
          exact (storage_after_result _ _).2.2
  | failure b tabId _ _ => exact Or.inr (Or.inr (storage_after_result _ _).2.2)

/-- Every state the relay reaches through clicks and settlements, in any interleaving, is
reachable by the three storage writes. -/
theorem relayRun_reachable (events : List RelayEvent) (r r' : Relay)
    (h : Reachable r.browser) (hrun : relayRun r events = some r') : Reachable r'.browser := by
  induction events generalizing r with
  | nil =>
    cases hrun
    exact h
  | cons e rest ih =>
    simp only [relayRun] at hrun
    cases hstep : relayStep r e with
    | none => simp [hstep] at hrun
    | some r1 =>
      simp only [hstep] at hrun
      refine ih r1 ?_ hrun
      cases e with
      | click info tabId =>
        simp only [relayStep] at hstep
        split at hstep
        · cases hstep
          exact Reachable.cycleStart _ _ _ h
        · cases hstep
          exact h
      | settled index out =>
        simp only [relayStep] at hstep
        split at hstep
        · cases hstep
        · rename_i request _
          cases hstep
          show Reachable (settle out request.2 r.browser)
          unfold settle
          cases hres : runAIAnalysis out request.2 r.browser with
          | ok b' => exact Reachable.success _ _ out request.2 h hres
          | error e => exact Reachable.failure _ _ h

/-- C6: in every state reachable from the empty store by the relay's storage writes, exactly
one of these holds: `isAnalyzing` is `true` and `analysisResult` is `null`; `analysisResult`
is set and `isAnalyzing` is `false`; `analysisResult` is `null` or absent and `isAnalyzing` is
`false` or absent. No reachable state has `isAnalyzing` `true` with a non-null
`analysisResult`. -/
theorem state_invariant (b : Browser) (h : Reachable b) :
    (((isAnalyzingTrue b.storage ∧ resultEmpty b.storage)
          ∧ ¬ (¬ resultEmpty b.storage ∧ isAnalyzingOff b.storage)
          ∧ ¬ (resultEmpty b.storage ∧ isAnalyzingOff b.storage))
        ∨ (¬ (isAnalyzingTrue b.storage ∧ resultEmpty b.storage)
          ∧ (¬ resultEmpty b.storage ∧ isAnalyzingOff b.storage)
          ∧ ¬ (resultEmpty b.storage ∧ isAnalyzingOff b.storage))
        ∨ (¬ (isAnalyzingTrue b.storage ∧ resultEmpty b.storage)
          ∧ ¬ (¬ resultEmpty b.storage ∧ isAnalyzingOff b.storage)
          ∧ (resultEmpty b.storage ∧ isAnalyzingOff b.storage)))
      ∧ ¬ (isAnalyzingTrue b.storage ∧ ¬ resultEmpty b.storage) := by
  unfold isAnalyzingTrue isAnalyzingOff resultEmpty
  have hcases := reachable_storage b h
  generalize lookupField "analysisResult".toList b.storage = result at hcases ⊢
  generalize lookupField "isAnalyzing".toList b.storage = flag at hcases ⊢
  rcases hcases with ⟨h1, h2⟩ | ⟨h1, h2⟩ | h3
  · subst h1 h2
    simp
  · subst h1 h2
    simp
  · subst h3
    by_cases he : result = .null ∨ result = .undefined
    · simp [he]
    · simp [he]

theorem state_invariant_witness :
    (((isAnalyzingTrue (dispatch "x".toList 1 Browser.initial).storage
            ∧ resultEmpty (dispatch "x".toList 1 Browser.initial).storage)
          ∧ ¬ (¬ resultEmpty (dispatch "x".toList 1 Browser.initial).storage
            ∧ isAnalyzingOff (dispatch "x".toList 1 Browser.initial).storage)
          ∧ ¬ (resultEmpty (dispatch "x".toList 1 Browser.initial).storage
            ∧ isAnalyzingOff (dispatch "x".toList 1 Browser.initial).storage))
        ∨ (¬ (isAnalyzingTrue (dispatch "x".toList 1 Browser.initial).storage
            ∧ resultEmpty (dispatch "x".toList 1 Browser.initial).storage)
          ∧ (¬ resultEmpty (dispatch "x".toList 1 Browser.initial).storage
            ∧ isAnalyzingOff (dispatch "x".toList 1 Browser.initial).storage)
          ∧ ¬ (resultEmpty (dispatch "x".toList 1 Browser.initial).storage
            ∧ isAnalyzingOff (dispatch "x".toList 1 Browser.initial).storage))
        ∨ (¬ (isAnalyzingTrue (dispatch "x".toList 1 Browser.initial).storage
            ∧ resultEmpty (dispatch "x".toList 1 Browser.initial).storage)
          ∧ ¬ (¬ resultEmpty (dispatch "x".toList 1 Browser.initial).storage
            ∧ isAnalyzingOff (dispatch "x".toList 1 Browser.initial).storage)
          ∧ (resultEmpty (dispatch "x".toList 1 Browser.initial).storage
            ∧ isAnalyzingOff (dispatch "x".toList 1 Browser.initial).storage)))
      ∧ ¬ (isAnalyzingTrue (dispatch "x".toList 1 Browser.initial).storage
        ∧ ¬ resultEmpty (dispatch "x".toList 1 Browser.initial).storage) :=
  state_invariant (dispatch "x".toList 1 Browser.initial)
    (Reachable.cycleStart Browser.initial "x".toList 1 Reachable.initial)

/-- C10: when cycle B is triggered before the request of cycle A settles and A's response
arrives after B's result has been stored, the final state has B's text as `lastSelectedText`
and A's result (or, when A's request fails, the failure placeholder) as `analysisResult`: a
settlement writes without checking which request was dispatched last. -/
theorem stale_response_clobbers (b : Browser) (textA textB : JStr) (tabA tabB : Nat)
    (resultA resultB : JVal) (failA : JsError) (hA : textA ≠ []) (hB : textB ≠ []) :
    (∃ final, relayRun ⟨b, []⟩
          [.click ⟨FACT_CHECK_MENU_ID, some textA⟩ tabA,
            .click ⟨FACT_CHECK_MENU_ID, some textB⟩ tabB,
            .settled 1 (.resolved true 200 "OK".toList (.error failA) (.ok resultB)),
            .settled 0 (.resolved true 200 "OK".toList (.error failA) (.ok resultA))]
          = some final
        ∧ final.inFlight = []
        ∧ lookupField "lastSelectedText".toList final.browser.storage = .str (trim textB)
        ∧ lookupField "analysisResult".toList final.browser.storage = resultA
        ∧ lookupField "isAnalyzing".toList final.browser.storage = .bool false)
      ∧ (∃ final, relayRun ⟨b, []⟩
          [.click ⟨FACT_CHECK_MENU_ID, some textA⟩ tabA,
            .click ⟨FACT_CHECK_MENU_ID, some textB⟩ tabB,
            .settled 1 (.resolved true 200 "OK".toList (.error failA) (.ok resultB)),
            .settled 0 (.rejected failA)]
          = some final
        ∧ final.inFlight = []
        ∧ lookupField "lastSelectedText".toList final.browser.storage = .str (trim textB)
        ∧ lookupField "analysisResult".toList final.browser.storage = errorResult
        ∧ lookupField "isAnalyzing".toList final.browser.storage = .bool false) := by
  have accA : clickAccepted ⟨FACT_CHECK_MENU_ID, some textA⟩ = true := by
    cases textA with
    | nil => exact absurd rfl hA
    | cons c cs => simp [clickAccepted]
  have accB : clickAccepted ⟨FACT_CHECK_MENU_ID, some textB⟩ = true := by
    cases textB with
    | nil => exact absurd rfl hB
    | cons c cs => simp [clickAccepted]
  have hB1 := (storage_after_dispatch (trim textB) tabB (dispatch (trim textA) tabA b)).1
  constructor
  · refine ⟨⟨settle (.resolved true 200 "OK".toList (.error failA) (.ok resultA)) tabA
        (settle (.resolved true 200 "OK".toList (.error failA) (.ok resultB)) tabB
          (dispatch (trim textB) tabB (dispatch (trim textA) tabA b))), []⟩, ?_, ?_, ?_, ?_, ?_⟩
    · simp only [relayRun, relayStep, accA, accB, if_true, selectedTextOf, Option.getD_some,
        List.nil_append, List.cons_append, List.get?, List.eraseIdx]
    · rfl
    · simp only [settle_storage]
      rw [(storage_after_result _ _).1, (storage_after_result _ _).1]
      exact hB1
    · simp only [settle_storage]
      exact (storage_after_result _ _).2.1
    · simp only [settle_storage]
      exact (storage_after_result _ _).2.2
  · refine ⟨⟨settle (.rejected failA) tabA
        (settle (.resolved true 200 "OK".toList (.error failA) (.ok resultB)) tabB
          (dispatch (trim textB) tabB (dispatch (trim textA) tabA b))), []⟩, ?_, ?_, ?_, ?_, ?_⟩
    · simp only [relayRun, relayStep, accA, accB, if_true, selectedTextOf, Option.getD_some,
        List.nil_append, List.cons_append, List.get?, List.eraseIdx]
    · rfl
    · simp only [settle_storage]
      rw [(storage_after_result _ _).1, (storage_after_result _ _).1]
      exact hB1
    · simp only [settle_storage]
      exact (storage_after_result _ _).2.1
    · simp only [settle_storage]
      exact (storage_after_result _ _).2.2

theorem stale_response_clobbers_witness :
    (∃ final, relayRun ⟨Browser.initial, []⟩
          [.click ⟨FACT_CHECK_MENU_ID, some "first claim".toList⟩ 1,
            .click ⟨FACT_CHECK_MENU_ID, some "second claim".toList⟩ 1,
            .settled 1 (.resolved true 200 "OK".toList (.error ⟨[]⟩) (.ok (.str "B".toList))),
            .settled 0 (.resolved true 200 "OK".toList (.error ⟨[]⟩) (.ok (.str "A".toList)))]
          = some final
        ∧ final.inFlight = []
        ∧ lookupField "lastSelectedText".toList final.browser.storage
          = .str (trim "second claim".toList)
        ∧ lookupField "analysisResult".toList final.browser.storage = .str "A".toList
        ∧ lookupField "isAnalyzing".toList final.browser.storage = .bool false)
      ∧ (∃ final, relayRun ⟨Browser.initial, []⟩
          [.click ⟨FACT_CHECK_MENU_ID, some "first claim".toList⟩ 1,
            .click ⟨FACT_CHECK_MENU_ID, some "second claim".toList⟩ 1,
            .settled 1 (.resolved true 200 "OK".toList (.error ⟨[]⟩) (.ok (.str "B".toList))),
            .settled 0 (.rejected ⟨[]⟩)]
          = some final
        ∧ final.inFlight = []
        ∧ lookupField "lastSelectedText".toList final.browser.storage
          = .str (trim "second claim".toList)
        ∧ lookupField "analysisResult".toList final.browser.storage = errorResult
        ∧ lookupField "isAnalyzing".toList final.browser.storage = .bool false) :=
  stale_response_clobbers Browser.initial "first claim".toList "second claim".toList 1 1
    (.str "A".toList) (.str "B".toList) ⟨[]⟩ (by decide) (by decide)


/-! ## The result presenter -/

theorem value_scaled (x e m : Int) (h : m ≤ e) :
    (x : ℚ) * (10 : ℚ) ^ e = ((x * 10 ^ (e - m).toNat : ℤ) : ℚ) * (10 : ℚ) ^ m := by
  have hk : ((e - m).toNat : ℤ) = e - m := Int.toNat_of_nonneg (sub_nonneg.mpr h)
  have he : e = ((e - m).toNat : ℤ) + m := by rw [hk]; ring
  push_cast
  rw [mul_assoc, ← zpow_natCast, ← zpow_add₀ (by norm_num : (10 : ℚ) ≠ 0), ← he]

/-- The comparison of the model is the comparison of the values. -/
theorem JNum.gt_iff (a b : JNum) : a.gt b = true ↔ b.value < a.value := by
  unfold JNum.gt JNum.value
  rw [decide_eq_true_iff, value_scaled a.mant a.exp (min a.exp b.exp) (min_le_left _ _),
    value_scaled b.mant b.exp (min a.exp b.exp) (min_le_right _ _),
    mul_lt_mul_right (zpow_pos (by norm_num : (0 : ℚ) < 10) _), Int.cast_lt]

theorem JNum.value_eq_zero (n : JNum) : n.value = 0 ↔ n.mant = 0 := by
  unfold JNum.value
  rw [mul_eq_zero]
  constructor
  · rintro (h | h)
    · exact_mod_cast h
    · exact absurd h (zpow_ne_zero _ (by norm_num))
  · intro h
    left
    exact_mod_cast h

theorem ringColor_num (n : JNum) : ringColor (.num n) = .ok (thresholdColor n) := by
  have v70 : (JNum.ofInt 70).value = 70 := by
    rw [show JNum.ofInt 70 = ⟨7, 1⟩ from by decide]
    norm_num [JNum.value]
  have v40 : (JNum.ofInt 40).value = 40 := by
    rw [show JNum.ofInt 40 = ⟨4, 1⟩ from by decide]
    norm_num [JNum.value]
  have g70 := JNum.gt_iff n (JNum.ofInt 70)
  have g40 := JNum.gt_iff n (JNum.ofInt 40)
  rw [v70] at g70
  rw [v40] at g40
  unfold ringColor thresholdColor gtNumber
  simp only [toNumber, Except.map, NumResult.gt]
  by_cases h70 : 70 < n.value
  · rw [g70.mpr h70, if_pos h70]
  · have e70 : n.gt (JNum.ofInt 70) = false := by
      rw [← Bool.not_eq_true, g70]
      exact h70
    rw [e70, if_neg h70]
    by_cases h40 : 40 < n.value
    · rw [g40.mpr h40, if_pos ⟨h40, not_lt.mp h70⟩]
    · have e40 : n.gt (JNum.ofInt 40) = false := by
        rw [← Bool.not_eq_true, g40]
        exact h40
      rw [e40, if_neg (fun h => h40 h.1)]

/-- C8: when the reliability score `s` of the presented result is absent or zero, the presenter
shows the neutral unverified placeholder (icon, `--`, the summary or the fallback sentence) and
no ring; otherwise the score text is `s%` and the ring colour is green for `s > 70`, yellow for
`40 < s <= 70` and red for `s <= 40`. -/
theorem score_rendering (fields : List (JStr × JVal)) (s : Option JNum)
    (h : lookupField "reliability_score".toList fields = presentedScore s) :
    ∃ view, scoreView (.obj fields) = .ok view
      ∧ rendersScore s (lookupField "summary".toList fields) view := by
  unfold scoreView
  simp only [getProp]
  rw [h]
  cases s with
  | none => exact ⟨_, rfl, rfl, rfl, rfl, rfl, rfl, rfl⟩
  | some n =>
    simp only [presentedScore, rendersScore]
    by_cases hz : n.value = 0
    · have hm := (JNum.value_eq_zero n).mp hz
      simp only [truthy, strictEqZero, hm, hz, if_true, ne_eq, not_true_eq_false,
        decide_False, decide_True, Bool.not_false, Bool.or_self]
      exact ⟨_, rfl, rfl, rfl, rfl, rfl, rfl, rfl⟩
    · have hm : ¬ n.mant = 0 := fun hm => hz ((JNum.value_eq_zero n).mpr hm)
      simp only [truthy, strictEqZero, hm, hz, if_false, ne_eq, not_false_eq_true,
        decide_False, decide_True, Bool.not_true, Bool.or_self, toStr, ringColor_num]
      exact ⟨_, rfl, rfl, rfl, rfl, rfl, rfl, rfl⟩

theorem score_rendering_witness :
    ∃ view, scoreView (.obj [("reliability_score".toList, .num ⟨85, 0⟩),
          ("summary".toList, .str "Supported.".toList)]) = .ok view
      ∧ rendersScore (some ⟨85, 0⟩)
        (lookupField "summary".toList [("reliability_score".toList, .num ⟨85, 0⟩),
          ("summary".toList, .str "Supported.".toList)]) view :=
  score_rendering [("reliability_score".toList, .num ⟨85, 0⟩),
    ("summary".toList, .str "Supported.".toList)] (some ⟨85, 0⟩) rfl

/-- The examples of the specification: 85 is green with the text `85%`, 50 and 70 are yellow,
20 and 40 are red, and a zero score gives the placeholder. -/
theorem score_examples :
    (scoreView (.obj [("reliability_score".toList, .num ⟨85, 0⟩)])).map
        (fun v => (v.background, v.scoreText))
        = .ok ("conic-gradient(#4CAF50 85%, #ddd 85%)".toList, "85%".toList)
      ∧ (scoreView (.obj [("reliability_score".toList, .num ⟨50, 0⟩)])).map
        (fun v => (v.background, v.scoreText))
        = .ok ("conic-gradient(#FFC107 50%, #ddd 50%)".toList, "50%".toList)
      ∧ (scoreView (.obj [("reliability_score".toList, .num ⟨70, 0⟩)])).map
        (fun v => (v.background, v.scoreText))
        = .ok ("conic-gradient(#FFC107 70%, #ddd 70%)".toList, "70%".toList)
      ∧ (scoreView (.obj [("reliability_score".toList, .num ⟨20, 0⟩)])).map
        (fun v => (v.background, v.scoreText))
        = .ok ("conic-gradient(#F44336 20%, #ddd 20%)".toList, "20%".toList)
      ∧ (scoreView (.obj [("reliability_score".toList, .num ⟨40, 0⟩)])).map
        (fun v => (v.background, v.scoreText))
        = .ok ("conic-gradient(#F44336 40%, #ddd 40%)".toList, "40%".toList)
      ∧ (scoreView (.obj [("reliability_score".toList, .num ⟨0, 0⟩)])).map
        (fun v => (v.icon, v.scoreText)) = .ok (some "❓".toList, "--".toList) := by
  refine ⟨?_, ?_, ?_, ?_, ?_, ?_⟩ <;> rfl


theorem stripZeros_value (fuel : Nat) (m e : Int) :
    ((stripZeros fuel m e).1 : ℚ) * (10 : ℚ) ^ (stripZeros fuel m e).2
      = (m : ℚ) * (10 : ℚ) ^ e := by
  induction fuel generalizing m e with
  | zero => rfl
  | succ fuel ih =>
    unfold stripZeros
    split
    · rename_i hm
      rw [ih]
      have hdiv : m = 10 * (m / 10) := by
        have := Int.emod_add_ediv m 10
        omega
      rw [zpow_add₀ (by norm_num : (10 : ℚ) ≠ 0), zpow_one]
      conv_rhs => rw [hdiv]
      push_cast
      ring
    · rfl

theorem JNum.normalize_value (m e : Int) :
    (JNum.normalize m e).value = (m : ℚ) * (10 : ℚ) ^ e := by
  unfold JNum.normalize
  split
  · rename_i hm
    simp [JNum.value, hm]
  · exact stripZeros_value _ m e

theorem JNum.ofInt_value (n : Int) : (JNum.ofInt n).value = n := by
  unfold JNum.ofInt
  rw [JNum.normalize_value]
  simp

theorem sourceItem_str (url : JStr) : sourceItem (.str url) = .ok undefinedLink := by
  unfold sourceItem
  simp only [getProp]
  rw [if_neg (by decide), if_neg (by decide)]
  rfl

theorem sourceItems_str (urls : List JStr) :
    sourceItems (urls.map .str) = .ok (urls.map (fun _ => undefinedLink)) := by
  induction urls with
  | nil => rfl
  | cons url urls ih =>
    simp only [List.map_cons, sourceItems, sourceItem_str, ih]

/-- For every non-empty list of URL strings as `sources`, the presenter makes one entry per
source, and every entry shows the text `undefined` in place of the URL. -/
theorem sourcesView_strings (fields : List (JStr × JVal)) (urls : List JStr)
    (h : lookupField "sources".toList fields = .arr (urls.map .str)) (hne : urls ≠ []) :
    sourcesView (.obj fields) = .ok (urls.map (fun _ => undefinedLink)) := by
  have hlen : (0 : ℚ) < ((urls.map JVal.str).length : ℤ) := by
    cases urls with
    | nil => exact absurd rfl hne
    | cons u us =>
      simp only [List.map_cons, List.length_cons]
      push_cast
      positivity
  have hgt : (JNum.ofInt ((urls.map JVal.str).length : ℤ)).gt (JNum.ofInt 0) = true := by
    rw [JNum.gt_iff, JNum.ofInt_value, JNum.ofInt_value]
    exact_mod_cast hlen
  unfold sourcesView
  simp only [getProp]
  rw [h]
  simp only [truthy, Bool.not_true, if_true, gtNumber, toNumber, Except.map, NumResult.gt,
    hgt, Bool.false_eq_true, if_false]
  exact sourceItems_str urls

/-- Without sources, or with an empty list, the presenter shows the one empty-state entry. -/
theorem sourcesView_empty (fields : List (JStr × JVal))
    (h : lookupField "sources".toList fields = .undefined
      ∨ lookupField "sources".toList fields = .arr []) :
    sourcesView (.obj fields) = .ok [noSourcesItem] := by
  unfold sourcesView
  simp only [getProp]
  rcases h with h | h <;> rw [h] <;> rfl

/-- C7, on the code: in the scenario of the specification the endpoint answers 200 with the
object of the completion and the relay stores it as `analysisResult`, but the presenter reads
`reliability_score`, which that object does not have, and shows the unverified placeholder
with `--` instead of a red ring with `2%`. -/
theorem scenario_shows_placeholder :
    (factCheckHandler (fun _ => .returns (some scenarioCompletion))
        (.obj [("text".toList, .str "The Earth is flat.".toList)])).result
        = .ok ⟨200, scenarioResult⟩
      ∧ ∃ b view, endToEnd (fun _ => .returns (some scenarioCompletion))
          "The Earth is flat.".toList 1 scenarioCompletion Browser.initial = some b
        ∧ lookupField "analysisResult".toList b.storage = scenarioResult
        ∧ lookupField "isAnalyzing".toList b.storage = .bool false
        ∧ initializePopup b.storage = .ok (.results view)
        ∧ view.score.icon = some "❓".toList
        ∧ view.score.scoreText = "--".toList
        ∧ view.score.scoreTextAppended = false :=
  ⟨rfl, _, _, rfl, rfl, rfl, rfl, rfl, rfl, rfl⟩

/-- C9, on the code: for the sources of the canonical server shape, a list of URL strings, the
presenter makes one entry, whose link target and shown URL are the text `undefined` and not the
URL, because it reads the properties `url` and `title` of each source. -/
theorem string_source_shows_undefined :
    sourcesView scenarioResult
        = .ok [.link "flex items-start text-sm".toList
          (linkMarkup "undefined".toList "undefined".toList "undefined".toList)]
      ∧ linkMarkup "undefined".toList "undefined".toList "undefined".toList
        ≠ linkMarkup "https://nasa.gov/...".toList "undefined".toList
          "https://nasa.gov/...".toList := by
  refine ⟨rfl, ?_⟩
  decide

end FactCheck
